import Mathlib

/-!
Verification development for the metadata-driven persistence engine of the
itsm-platform repository.  The Go sources are shallowly embedded: dynamic
`interface\x7b\x7d` values become the inductive `GoValue`, Go maps iterated in a loop
become association lists iterated in list order, `(T, error)` returns become
`Except String T`, and the database / regexp / callback collaborators become
explicit oracle parameters.  Each embedded function names the Go function it
mirrors (file and symbol given in its doc comment).
-/

/-- GoValue models a dynamically typed Go `interface` value as it occurs in
entity records and query conditions: string, int, float64 (integral values
suffice for the embedded code paths), bool, timestamp, nil, slice, and a
nested entity record (used when a resolved relation is attached to a row). -/
inductive GoValue where
  | vStr (s : String)
  | vInt (n : Int)
  | vFloat (n : Int)
  | vBool (b : Bool)
  | vTime (t : Nat)
  | vNull
  | vList (elems : List GoValue)
  | vEnt (fields : List (String × GoValue))

mutual

/-- Go `==` on interface values (comparing a nested map would panic in Go;
the embedding returns false for `vEnt`, a case no embedded code path hits). -/
def GoValue.beq : GoValue → GoValue → Bool
  | .vStr a, .vStr b => a == b
  | .vInt a, .vInt b => a == b
  | .vFloat a, .vFloat b => a == b
  | .vBool a, .vBool b => a == b
  | .vTime a, .vTime b => a == b
  | .vNull, .vNull => true
  | .vList a, .vList b => GoValue.listBeq a b
  | _, _ => false

/-- Elementwise equality of value slices, used by `GoValue.beq`. -/
def GoValue.listBeq : List GoValue → List GoValue → Bool
  | [], [] => true
  | a :: as, b :: bs => GoValue.beq a b && GoValue.listBeq as bs
  | _, _ => false

end

/-- Entity mirrors `dal.Entity` (`map[string]interface\x7b\x7d`); a Go map becomes an
association list, and the one map-iteration order of a run becomes list order. -/
def Entity := List (String × GoValue)

/-- Go map read `v, ok := e[k]`. -/
def entGet (e : Entity) (k : String) : Option GoValue :=
  match e.find? (fun p => p.1 == k) with
  | some p => some p.2
  | none => none

/-- Go map write `e[k] = v` (replaces an existing binding, else appends). -/
def entSet : Entity → String → GoValue → Entity
  | [], k, v => [(k, v)]
  | (k0, v0) :: rest, k, v =>
    if k0 == k then (k, v) :: rest else (k0, v0) :: entSet rest k v

/-- Go map read defaulting to the nil interface when the key is absent. -/
def entGetD (e : Entity) (k : String) : GoValue :=
  match entGet e k with
  | some v => v
  | none => .vNull

/-- Decimal digits of a natural number, fuel-driven so that it reduces in the
kernel; mirrors the digit loop of Go `strconv` formatting used by `%d`. -/
def natDigitsCore : Nat → Nat → List Char → List Char
  | 0, _, acc => acc
  | fuel + 1, n, acc =>
    let acc2 := Char.ofNat (48 + n % 10) :: acc
    if n < 10 then acc2 else natDigitsCore fuel (n / 10) acc2

/-- Decimal rendering of a natural number (Go `%d` on a non-negative int). -/
def natToStr (n : Nat) : String := ⟨natDigitsCore (n + 1) n []⟩

/-- Go `%d` on an int. -/
def intToStr (i : Int) : String :=
  if i < 0 then "-" ++ natToStr (-i).toNat else natToStr i.toNat

/-- Positional placeholder `$i`, as produced by `fmt.Sprintf("$%d", i)`. -/
def ph (i : Nat) : String := "$" ++ natToStr i

/-- Go `strings.Join(parts, sep)`. -/
def goJoin : List String → String → String
  | [], _ => ""
  | [s], _ => s
  | s :: rest, sep => s ++ sep ++ goJoin rest sep

/-- Character-level worker for Go `strings.ReplaceAll`: replaces
non-overlapping occurrences of `old` left to right. -/
def replaceAllChars (old new : List Char) : List Char → List Char
  | [] => []
  | c :: rest =>
    if old.isPrefixOf (c :: rest) then
      new ++ replaceAllChars old new (List.drop (old.length - 1) rest)
    else
      c :: replaceAllChars old new rest
termination_by l => l.length
decreasing_by
  all_goals simp only [List.length_drop, List.length_cons]
  all_goals omega

/-- Go `strings.ReplaceAll(s, old, new)`. -/
def goReplaceAll (s old new : String) : String :=
  ⟨replaceAllChars old.data new.data s.data⟩

namespace Qry

/-- Condition mirrors `query.Condition` (sdk/graph/sync.go, query package):
a leaf binds field, operator and value; a non-empty `orConds` or `andConds`
makes the node an OR / AND group. -/
inductive Condition where
  | mk (field op : String) (value : GoValue) (orConds andConds : List Condition)

/-- Field accessor of a condition. -/
def Condition.field : Condition → String
  | .mk f _ _ _ _ => f

/-- Operator accessor of a condition. -/
def Condition.op : Condition → String
  | .mk _ o _ _ _ => o

/-- Value accessor of a condition. -/
def Condition.value : Condition → GoValue
  | .mk _ _ v _ _ => v

/-- OrderClause mirrors `query.OrderClause`. -/
structure OrderClause where
  field : String
  dir : String

/-- RelationQuery mirrors `query.RelationQuery`. -/
structure RelationQuery where
  name : String
  select : List String

/-- GoQuery mirrors `query.Query` (the JSON query from the UI). -/
structure GoQuery where
  select : List String
  fromTable : String
  whereConds : List Condition
  orderBy : List OrderClause
  limit : Int
  offset : Int
  relations : List RelationQuery

/-- Builder mirrors `query.Builder`; the Go `map[string]bool` of valid
properties becomes the list of property names (membership via `contains`). -/
structure Builder where
  schema : String
  properties : List String

/-- Ascending placeholder fragments `$s, $(s+1), ...` as emitted by the
`in` / `not_in` loops of `buildSingleCondition`. -/
def phRange (s : Nat) : Nat → List String
  | 0 => []
  | m + 1 => ph s :: phRange (s + 1) m

/-- buildSingleCondition mirrors `Builder.buildSingleCondition`
(sdk/graph/sync.go, query package): one leaf condition becomes a SQL
fragment, its argument values, and the advanced placeholder counter. -/
def buildSingleCondition (c : Condition) (paramIdx : Nat) :
    String × List GoValue × Nat :=
  match c.op with
  | "eq" | "=" | "" =>
    (c.field ++ " = " ++ ph paramIdx, [c.value], paramIdx + 1)
  | "neq" | "!=" | "<>" =>
    (c.field ++ " != " ++ ph paramIdx, [c.value], paramIdx + 1)
  | "gt" | ">" =>
    (c.field ++ " > " ++ ph paramIdx, [c.value], paramIdx + 1)
  | "gte" | ">=" =>
    (c.field ++ " >= " ++ ph paramIdx, [c.value], paramIdx + 1)
  | "lt" | "<" =>
    (c.field ++ " < " ++ ph paramIdx, [c.value], paramIdx + 1)
  | "lte" | "<=" =>
    (c.field ++ " <= " ++ ph paramIdx, [c.value], paramIdx + 1)
  | "like" =>
    (c.field ++ " LIKE " ++ ph paramIdx, [c.value], paramIdx + 1)
  | "ilike" =>
    (c.field ++ " ILIKE " ++ ph paramIdx, [c.value], paramIdx + 1)
  | "in" =>
    match c.value with
    | .vList vs =>
      (c.field ++ " IN (" ++ goJoin (phRange paramIdx vs.length) ", " ++ ")",
       vs, paramIdx + vs.length)
    | _ => ("", [], paramIdx)
  | "not_in" =>
    match c.value with
    | .vList vs =>
      (c.field ++ " NOT IN (" ++ goJoin (phRange paramIdx vs.length) ", " ++ ")",
       vs, paramIdx + vs.length)
    | _ => ("", [], paramIdx)
  | "is_null" => (c.field ++ " IS NULL", [], paramIdx)
  | "is_not_null" => (c.field ++ " IS NOT NULL", [], paramIdx)
  | "between" =>
    match c.value with
    | .vList [a, b] =>
      (c.field ++ " BETWEEN " ++ ph paramIdx ++ " AND " ++ ph (paramIdx + 1),
       [a, b], paramIdx + 2)
    | _ => ("", [], paramIdx)
  | _ =>
    (c.field ++ " = " ++ ph paramIdx, [c.value], paramIdx + 1)

/-- buildCondParts renders the loop body of `Builder.buildConditions`
(sdk/graph/sync.go, query package) as a recursion producing the `parts`
and `params` slices plus the final placeholder counter; the caller joins
`parts` with AND exactly where the Go code does.  An OR group compiles its
children, joins them with AND, then text-replaces AND with OR; an AND group
compiles its children in parentheses; a leaf is validated against the
property set before `buildSingleCondition` runs. -/
def buildCondParts (props : List String) :
    List Condition → Nat → Except String (List String × List GoValue × Nat)
  | [], i => .ok ([], [], i)
  | .mk f o v orL andL :: rest, i =>
    if orL.length > 0 then
      match buildCondParts props orL i with
      | .error e => .error e
      | .ok (orParts, orParams, idx) =>
        match buildCondParts props rest idx with
        | .error e => .error e
        | .ok (parts, params, idx2) =>
          .ok (("(" ++ goReplaceAll (goJoin orParts " AND ") " AND " " OR " ++ ")") :: parts,
               orParams ++ params, idx2)
    else if andL.length > 0 then
      match buildCondParts props andL i with
      | .error e => .error e
      | .ok (andParts, andParams, idx) =>
        match buildCondParts props rest idx with
        | .error e => .error e
        | .ok (parts, params, idx2) =>
          .ok (("(" ++ goJoin andParts " AND " ++ ")") :: parts,
               andParams ++ params, idx2)
    else if props.contains f then
      match buildSingleCondition (.mk f o v orL andL) i with
      | (s, ps, idx) =>
        match buildCondParts props rest idx with
        | .error e => .error e
        | .ok (parts, params, idx2) => .ok (s :: parts, ps ++ params, idx2)
    else .error ("invalid field: " ++ f)

/-- buildConditions mirrors `Builder.buildConditions`: the collected parts
joined with AND, the collected params, and the final counter. -/
def buildConditions (props : List String) (conds : List Condition) (i : Nat) :
    Except String (String × List GoValue × Nat) :=
  match buildCondParts props conds i with
  | .error e => .error e
  | .ok (parts, params, idx) => .ok (goJoin parts " AND ", params, idx)

/-- Order-by validation and rendering loop of `Builder.Build`. -/
def buildOrders (props : List String) : List OrderClause → Except String (List String)
  | [] => .ok []
  | o :: rest =>
    if props.contains o.field then
      match buildOrders props rest with
      | .error e => .error e
      | .ok l =>
        .ok ((o.field ++ " " ++ (if o.dir.toUpper == "DESC" then "DESC" else "ASC")) :: l)
    else .error ("invalid order field: " ++ o.field)

/-- SELECT stage of `Builder.Build`: empty projection is `SELECT *`, a
non-empty one is validated field-by-field and errors on the first unknown. -/
def buildSelectPart (props sel : List String) : Except String String :=
  if sel.length == 0 then .ok "SELECT *"
  else
    match sel.find? (fun f => !(props.contains f)) with
    | some f => .error ("invalid field: " ++ f)
    | none => .ok ("SELECT " ++ goJoin sel ", ")

/-- WHERE stage of `Builder.Build`: empty filter emits nothing, otherwise
the compiled condition tree with parameters starting at `$1`. -/
def buildWherePart (props : List String) (conds : List Condition) :
    Except String (String × List GoValue) :=
  if conds.length > 0 then
    match buildConditions props conds 1 with
    | .error e => .error e
    | .ok (w, ps, _) => .ok (" WHERE " ++ w, ps)
  else .ok ("", [])

/-- ORDER BY stage of `Builder.Build`. -/
def buildOrderPart (props : List String) (orderBy : List OrderClause) :
    Except String String :=
  if orderBy.length > 0 then
    match buildOrders props orderBy with
    | .error e => .error e
    | .ok l => .ok (" ORDER BY " ++ goJoin l ", ")
  else .ok ""

/-- Build mirrors `Builder.Build` (sdk/graph/sync.go, query package): SELECT
projection validated field-by-field, FROM schema.table, WHERE from the
condition tree, validated ORDER BY, inline LIMIT / OFFSET.  The Go return
`("", nil, err)` becomes `Except.error err`: on failure no statement and no
arguments are produced. -/
def Build (b : Builder) (q : GoQuery) : Except String (String × List GoValue) :=
  match buildSelectPart b.properties q.select with
  | .error e => .error e
  | .ok sel =>
    let base := sel ++ " FROM " ++ b.schema ++ "." ++ q.fromTable
    match buildWherePart b.properties q.whereConds with
    | .error e => .error e
    | .ok (wPart, params) =>
      match buildOrderPart b.properties q.orderBy with
      | .error e => .error e
      | .ok oPart =>
        let lPart := if q.limit > 0 then " LIMIT " ++ intToStr q.limit else ""
        let offPart := if q.offset > 0 then " OFFSET " ++ intToStr q.offset else ""
        .ok (base ++ wPart ++ oPart ++ lPart ++ offPart, params)

/-- Column/value pairs retained by `Builder.BuildUpdate`: immutable system
fields and keys absent from the metadata are skipped, in record order. -/
def buildUpdatePairs (props : List String) (data : Entity) : List (String × GoValue) :=
  data.filter (fun cv =>
    !(cv.1 == "id" || cv.1 == "tenant_id" || cv.1 == "created_at") && props.contains cv.1)

/-- SET fragments `col = $i` with ascending placeholder numbers. -/
def setFrags : List (String × GoValue) → Nat → List String
  | [], _ => []
  | (c, _) :: rest, i => (c ++ " = " ++ ph i) :: setFrags rest (i + 1)

/-- BuildUpdate mirrors `Builder.BuildUpdate` (sdk/graph/sync.go, query
package): SET clause from the retained pairs, WHERE on id with the next
placeholder, RETURNING *. -/
def BuildUpdate (b : Builder) (table id : String) (data : Entity) :
    String × List GoValue :=
  let pairs := buildUpdatePairs b.properties data
  ("UPDATE " ++ b.schema ++ "." ++ table ++ " SET " ++ goJoin (setFrags pairs 1) ", " ++
     " WHERE id = " ++ ph (pairs.length + 1) ++ " RETURNING *",
   pairs.map (fun cv => cv.2) ++ [.vStr id])

end Qry

namespace DalM

/-- Property mirrors `dal.Property` (sdk/dal/dal.go). -/
structure Property where
  name : String
  type : String
  required : Bool
  dflt : String

/-- Relation mirrors `dal.Relation` (sdk/dal/dal.go). -/
structure Relation where
  name : String
  type : String
  targetService : String
  targetNode : String
  localField : String
  targetField : String

/-- DALConfig mirrors `dal.DALConfig`. -/
structure DALConfig where
  softDelete : Bool
  optimisticLock : Bool

/-- Node mirrors `dal.Node` (entity metadata handed to the DAL). -/
structure Node where
  name : String
  table : String
  properties : List Property
  relations : List Relation
  dalConfig : DALConfig

/-- Property-name list built at the top of every DAL method
(`props[i] = p.Name`). -/
def propNames (n : Node) : List String :=
  n.properties.map Property.name

/-- Filter augmentation of `DAL.Execute` (sdk/dal/dal.go lines 102-112):
the tenant-equality condition is prepended to the caller's filter list, then
if soft delete is enabled a `deleted_at is_null` condition is appended. -/
def dalAugmentWhere (tenantID : String) (softDelete : Bool)
    (conds : List Qry.Condition) : List Qry.Condition :=
  let withTenant := Qry.Condition.mk "tenant_id" "eq" (.vStr tenantID) [] [] :: conds
  if softDelete then
    withTenant ++ [Qry.Condition.mk "deleted_at" "is_null" .vNull [] []]
  else withTenant

/-- Statement-building portion of `DAL.Execute` (sdk/dal/dal.go lines
93-118): a builder over the tenant schema and the node's property names,
applied to the augmented query. -/
def dalExecuteBuild (node : Node) (tenantID : String) (q : Qry.GoQuery) :
    Except String (String × List GoValue) :=
  Qry.Build ⟨"tenant_" ++ tenantID, propNames node⟩
    { q with whereConds := dalAugmentWhere tenantID node.dalConfig.softDelete q.whereConds }

/-- Count statement of `DAL.Execute` (sdk/dal/dal.go lines 132-138): built
from the tenant and soft-delete scope only, executed with the tenant id as
its only argument. -/
def dalExecuteCount (node : Node) (tenantID : String) : String × List GoValue :=
  let base := "SELECT COUNT(*) FROM tenant_" ++ tenantID ++ "." ++ node.table ++
    " WHERE tenant_id = $1"
  ((if node.dalConfig.softDelete then base ++ " AND deleted_at IS NULL" else base),
   [.vStr tenantID])

/-- Row-level truth of `deleted_at IS NULL` in the modelled store. -/
def isNullOpt : Option GoValue → Bool
  | none => true
  | some .vNull => true
  | some _ => false

/-- Modelled store evaluation of the `GetByID` statement (sdk/dal/dal.go
lines 208-220): first row matching id and tenant, and not soft-deleted when
the policy requires it; no row is `pgx.ErrNoRows`. -/
def getByID (store : List Entity) (softDelete : Bool) (tenantID id : String) :
    Option Entity :=
  store.find? (fun r =>
    GoValue.beq (entGetD r "id") (.vStr id) &&
    GoValue.beq (entGetD r "tenant_id") (.vStr tenantID) &&
    (!softDelete || isNullOpt (entGet r "deleted_at")))

/-- Modelled store evaluation of the UPDATE statement emitted by
`DAL.Update`: the first row whose id matches (the statement has no tenant
predicate; isolation comes from the per-tenant schema, modelled as the store
holding one tenant's table) and, when an optimistic-lock predicate was
appended, whose version equals the expected one, receives the SET
assignments; the updated row and store are returned, no matching row is
`pgx.ErrNoRows`. -/
def execUpdate (store : List Entity) (id : String) (lockVer : Option Int)
    (pairs : List (String × GoValue)) : Option (Entity × List Entity) :=
  match store with
  | [] => none
  | r :: rest =>
    if GoValue.beq (entGetD r "id") (.vStr id) &&
       (match lockVer with
        | some n => GoValue.beq (entGetD r "version") (.vInt n)
        | none => true) then
      let r2 := pairs.foldl (fun acc cv => entSet acc cv.1 cv.2) r
      some (r2, r2 :: rest)
    else
      match execUpdate rest id lockVer pairs with
      | some (r2, rest2) => some (r2, r :: rest2)
      | none => none

/-- dalUpdate mirrors `DAL.Update` (sdk/dal/dal.go lines 223-266) against the
modelled store: read the existing row, stamp `updated_at`, build the UPDATE
via `BuildUpdate`, and only then — with the statement and parameters already
materialized — append the `AND version = N` text (after `RETURNING *`, as the
source does) and write `data["version"] = N+1` into the map, which no longer
affects the statement.  Returns the statement text, the returned row, and
the new store.  The store model interprets the appended version text as a
predicate (the charitable reading; Postgres would reject the statement). -/
def dalUpdate (node : Node) (store : List Entity) (tenantID id : String)
    (data : Entity) (now : Nat) : Except String (String × Entity × List Entity) :=
  match getByID store node.dalConfig.softDelete tenantID id with
  | none => .error "entity not found"
  | some old =>
    let data1 := entSet data "updated_at" (.vTime now)
    let built := Qry.BuildUpdate ⟨"tenant_" ++ tenantID, propNames node⟩ node.table id data1
    let lockVer : Option Int :=
      if node.dalConfig.optimisticLock then
        match entGet old "version" with
        | some (.vInt n) => some n
        | _ => none
      else none
    let sql :=
      match lockVer with
      | some n => built.1 ++ " AND version = " ++ intToStr n
      | none => built.1
    let _data2 :=
      match lockVer with
      | some n => entSet data1 "version" (.vInt (n + 1))
      | none => data1
    match execUpdate store id lockVer (Qry.buildUpdatePairs (propNames node) data1) with
    | some (row, store2) => .ok (sql, row, store2)
    | none =>
      if node.dalConfig.optimisticLock then .error "optimistic lock conflict"
      else .error "update failed"

/-- ids collected by `fetchRelations`: local-field values present and
non-nil across the result set. -/
def collectIds (entities : List Entity) (localField : String) : List GoValue :=
  entities.filterMap (fun e =>
    match entGet e localField with
    | some v => if GoValue.beq v .vNull then none else some v
    | none => none)

/-- Association map assignment with Go overwrite semantics (later keys win). -/
def assocSet : List (String × Entity) → String → Entity → List (String × Entity)
  | [], k, v => [(k, v)]
  | (k0, v0) :: rest, k, v =>
    if k0 == k then (k, v) :: rest else (k0, v0) :: assocSet rest k v

/-- Association map lookup. -/
def assocGet (m : List (String × Entity)) (k : String) : Option Entity :=
  match m.find? (fun p => p.1 == k) with
  | some p => some p.2
  | none => none

/-- relatedMap construction of `fetchRelations`: related rows keyed by their
target-field value when it is a string. -/
def buildRelatedMap (related : List Entity) (targetField : String) :
    List (String × Entity) :=
  related.foldl (fun m r =>
    match entGet r targetField with
    | some (.vStr s) => assocSet m s r
    | _ => m) []

/-- Attachment loop of `fetchRelations`: each result row whose local-field
value is a string found in the related map gets the related row attached
under the relation name. -/
def attachRelated (entities : List Entity) (rel : Relation)
    (relatedMap : List (String × Entity)) : List Entity :=
  entities.map (fun e =>
    match entGet e rel.localField with
    | some (.vStr lid) =>
      match assocGet relatedMap lid with
      | some re => entSet e rel.name (.vEnt re)
      | none => e
    | _ => e)

/-- fetchRelations mirrors `DAL.fetchRelations` (sdk/dal/dal.go lines
328-388).  The store lookup `fetchRelatedEntities` is an oracle (it executes
a SELECT ... IN statement).  A requested name matching no declared relation
is skipped with `continue`; an empty id set is skipped; a same-service
relation is resolved and attached; a cross-service relation marks each row
with `name_pending = true`. -/
def fetchRelations
    (related : Relation → List GoValue → Except String (List Entity))
    (service : String) (node : Node) :
    List Entity → List Qry.RelationQuery → Except String (List Entity)
  | entities, [] => .ok entities
  | entities, rq :: rest =>
    match node.relations.find? (fun r => r.name == rq.name) with
    | none => fetchRelations related service node entities rest
    | some rel =>
      let ids := collectIds entities rel.localField
      if ids.length == 0 then fetchRelations related service node entities rest
      else if rel.targetService == service then
        match related rel ids with
        | .error e => .error e
        | .ok rows =>
          let relatedMap := buildRelatedMap rows rel.targetField
          fetchRelations related service node (attachRelated entities rel relatedMap) rest
      else
        fetchRelations related service node
          (entities.map (fun e => entSet e (rel.name ++ "_pending") (.vBool true))) rest

end DalM

namespace QE

/-- PropertyDefinition mirrors the dal-service `PropertyDefinition`
(services/dal-service/types.go); only the fields read by the embedded
functions are carried. -/
structure PropertyDefinition where
  name : String
  type : String
  required : Bool
  dflt : GoValue

/-- DALConfig mirrors the dal-service `DALConfig`. -/
structure DALConfig where
  softDelete : Bool
  optimisticLock : Bool

/-- NodeDefinition mirrors the dal-service `NodeDefinition` (the parts the
query executor reads). -/
structure NodeDefinition where
  name : String
  table : String
  properties : List PropertyDefinition
  dal : DALConfig

/-- Condition mirrors the dal-service `Condition` (flat, no groups). -/
structure Condition where
  field : String
  operator : String
  value : GoValue

/-- isValidField mirrors `QueryExecutor.isValidField`
(services/dal-service/query_executor.go lines 407-426): system fields and
declared properties are valid. -/
def isValidField (field : String) (node : NodeDefinition) : Bool :=
  ["id", "tenant_id", "created_at", "updated_at",
   "created_by", "updated_by", "deleted_at", "deleted_by", "version"].contains field
  || node.properties.any (fun p => p.name == field)

/-- Loop of `QueryExecutor.buildSelectClause`: a `*` entry returns `*`
immediately; a field failing `isValidField` is skipped without error. -/
def buildSelectLoop (node : NodeDefinition) :
    List String → List String → String
  | [], acc => if acc.length == 0 then "*" else goJoin acc ", "
  | f :: rest, acc =>
    if f == "*" then "*"
    else if isValidField f node then buildSelectLoop node rest (acc ++ [f])
    else buildSelectLoop node rest acc

/-- buildSelectClause mirrors `QueryExecutor.buildSelectClause`
(services/dal-service/query_executor.go lines 251-273). -/
def buildSelectClause (fields : List String) (node : NodeDefinition) : String :=
  if fields.length == 0 then "*" else buildSelectLoop node fields []

/-- buildCondition mirrors `QueryExecutor.buildCondition`
(services/dal-service/query_executor.go lines 299-332): one flat condition
becomes a fragment and at most one parameter (an `in` array is appended as a
single parameter by the caller). -/
def buildCondition (cond : Condition) (paramNum : Nat) : String × Option GoValue :=
  match cond.operator with
  | "eq" | "=" => (cond.field ++ " = " ++ ph paramNum, some cond.value)
  | "ne" | "!=" => (cond.field ++ " != " ++ ph paramNum, some cond.value)
  | "gt" | ">" => (cond.field ++ " > " ++ ph paramNum, some cond.value)
  | "gte" | ">=" => (cond.field ++ " >= " ++ ph paramNum, some cond.value)
  | "lt" | "<" => (cond.field ++ " < " ++ ph paramNum, some cond.value)
  | "lte" | "<=" => (cond.field ++ " <= " ++ ph paramNum, some cond.value)
  | "like" => (cond.field ++ " LIKE " ++ ph paramNum, some cond.value)
  | "in" =>
    match cond.value with
    | .vList arr =>
      (cond.field ++ " IN (" ++ goJoin (Qry.phRange paramNum arr.length) "," ++ ")",
       some (.vList arr))
    | _ => ("", none)
  | "is_null" => (cond.field ++ " IS NULL", none)
  | "is_not_null" => (cond.field ++ " IS NOT NULL", none)
  | _ => ("", none)

/-- Condition loop of `QueryExecutor.buildWhereClause`: the parameter
counter advances once per condition regardless of how many placeholders the
fragment consumed. -/
def whereLoop : List Condition → Nat → List String × List GoValue
  | [], _ => ([], [])
  | cond :: rest, paramCount =>
    let pc := paramCount + 1
    let built := buildCondition cond pc
    let (clauses, params) := whereLoop rest pc
    match built with
    | ("", _) => (clauses, params)
    | (clause, some p) => (clause :: clauses, p :: params)
    | (clause, none) => (clause :: clauses, params)

/-- buildWhereClause mirrors `QueryExecutor.buildWhereClause`
(services/dal-service/query_executor.go lines 275-297): the clause list
starts with the tenant predicate (and the soft-delete predicate when
enabled), then the caller's conditions, all joined with AND. -/
def buildWhereClause (conditions : List Condition) (tenantID : String)
    (node : NodeDefinition) : String × List GoValue :=
  let clauses0 := ["tenant_id = $1"] ++ (if node.dal.softDelete then ["deleted_at IS NULL"] else [])
  let params0 : List GoValue := [.vStr tenantID]
  let (clauses, params) := whereLoop conditions 1
  (goJoin (clauses0 ++ clauses) " AND ", params0 ++ params)

end QE

namespace Mig

/-- Migration mirrors the dal-service `Migration` (services/dal-service/
types.go, migrator part); pointer fields become options. -/
structure Migration where
  mtype : String
  table : String
  column : String
  property : Option QE.PropertyDefinition
  indexName : String
  indexFields : List String
  indexUnique : Bool

/-- mapType mirrors `Migrator.mapType`. -/
def mapType (dslType : String) : String :=
  match dslType with
  | "string" => "TEXT"
  | "int" | "integer" => "INTEGER"
  | "bigint" => "BIGINT"
  | "boolean" | "bool" => "BOOLEAN"
  | "uuid" => "UUID"
  | "datetime" | "timestamp" => "TIMESTAMPTZ"
  | "json" | "jsonb" => "JSONB"
  | _ => "TEXT"

/-- buildColumnDef mirrors `Migrator.buildColumnDef`. -/
def buildColumnDef (prop : QE.PropertyDefinition) : String :=
  prop.name ++ " " ++ mapType prop.type ++
    (if prop.required then " NOT NULL" else "") ++
    (if !(GoValue.beq prop.dflt (.vStr "")) then
       " DEFAULT " ++ (match prop.dflt with | .vStr s => s | _ => "") else "")

/-- generateSQL mirrors `Migrator.generateSQL` (services/dal-service/
types.go, migrator part).  `CREATE_TABLE` returns the empty string (the
source executes it out of band through the SchemaManager); a migration
carrying a nil pointer where the source would dereference it is outside the
embedded behavior and yields the empty string. -/
def generateSQL (schema : String) (migration : Migration) : String :=
  let tableName := schema ++ "." ++ migration.table
  match migration.mtype with
  | "CREATE_TABLE" => ""
  | "DROP_TABLE" => "DROP TABLE IF EXISTS " ++ tableName ++ " CASCADE"
  | "ADD_COLUMN" =>
    match migration.property with
    | some p => "ALTER TABLE " ++ tableName ++ " ADD COLUMN IF NOT EXISTS " ++ buildColumnDef p
    | none => ""
  | "DROP_COLUMN" =>
    "ALTER TABLE " ++ tableName ++ " DROP COLUMN IF EXISTS " ++ migration.column
  | "ALTER_COLUMN" =>
    match migration.property with
    | some p =>
      "ALTER TABLE " ++ tableName ++ " ALTER COLUMN " ++ migration.column ++
        " TYPE " ++ mapType p.type
    | none => ""
  | "CREATE_INDEX" =>
    "CREATE " ++ (if migration.indexUnique then "UNIQUE " else "") ++
      "INDEX IF NOT EXISTS " ++ migration.table ++ "_" ++ migration.indexName ++
      " ON " ++ tableName ++ "(" ++ goJoin migration.indexFields ", " ++ ")"
  | "DROP_INDEX" =>
    "DROP INDEX IF EXISTS " ++ schema ++ "." ++ migration.table ++ "_" ++ migration.indexName
  | _ => ""

/-- applyMigrations mirrors `Migrator.applyMigrations` (services/dal-service/
types.go lines 403-415): statements are executed in order against the
store oracle `execOk`; an empty statement is skipped; the first failing
statement stops the list and returns the wrapped error.  The returned log
holds every statement attempted, in order. -/
def applyMigrations (execOk : String → Bool) (schema : String) :
    List Migration → List String × Option String
  | [] => ([], none)
  | m :: rest =>
    let sql := generateSQL schema m
    if sql == "" then applyMigrations execOk schema rest
    else if execOk sql then
      let (log, err) := applyMigrations execOk schema rest
      (sql :: log, err)
    else ([sql], some ("migration failed: " ++ sql))

/-- migrateTenants mirrors the tenant loop of `Migrator.Migrate`
(services/dal-service/types.go lines 253-258): migrations are applied tenant
by tenant; the first tenant whose application fails makes `Migrate` return
the per-tenant wrapped error immediately.  The result pairs each processed
tenant with the statements attempted in its schema. -/
def migrateTenants (execOk : String → Bool) (migrations : List Migration) :
    List String → List (String × List String) × Option String
  | [] => ([], none)
  | t :: rest =>
    let (log, err) := applyMigrations execOk ("tenant_" ++ t) migrations
    match err with
    | some e => ([(t, log)], some ("migration failed for tenant " ++ t ++ ": " ++ e))
    | none =>
      let (logs, err2) := migrateTenants execOk migrations rest
      ((t, log) :: logs, err2)

end Mig

namespace Hx

/-- Validation mirrors `parser.Validation` (sdk/parser/dsl.go). -/
structure Validation where
  field : String
  rule : String
  value : GoValue
  message : String

/-- Rule mirrors `parser.Rule`. -/
structure Rule where
  condition : String
  action : String
  message : String

/-- Trigger mirrors `parser.Trigger`. -/
structure Trigger where
  onFieldChange : String
  action : String

/-- HookConfig mirrors `parser.HookConfig`. -/
structure HookConfig where
  enabled : Bool
  validations : List Validation
  rules : List Rule
  actions : List String
  triggers : List Trigger
  checks : List String

/-- Hooks mirrors `parser.Hooks`: the six lifecycle slots. -/
structure Hooks where
  preCreate : HookConfig
  postCreate : HookConfig
  preUpdate : HookConfig
  postUpdate : HookConfig
  preDelete : HookConfig
  postDelete : HookConfig

/-- Go two-value assertion `v.Value.(float64)` (zero value on failure). -/
def goAsFloat : GoValue → Int
  | .vFloat n => n
  | _ => 0

/-- Go two-value assertion `v.Value.(string)` (zero value on failure). -/
def goAsStr : GoValue → String
  | .vStr s => s
  | _ => ""

/-- Go `strings.Trim(s, quoteChars)` for the quote set used by
`evaluateSingleCondition`. -/
def trimQuoteChars (s : String) : String :=
  let qs := [Char.ofNat 39, Char.ofNat 34]
  ⟨((s.data.dropWhile (fun c => qs.contains c)).reverse.dropWhile
      (fun c => qs.contains c)).reverse⟩

/-- runValidation mirrors `Executor.runValidation` (sdk/hooks/executor.go
lines 179-237).  The regexp collaborators are oracles: `emailOk` decides the
hard-coded email pattern, `regexOk pattern s` decides a caller-supplied
pattern.  Each length or pattern rule fires only after the `value.(string)`
assertion succeeds; `required` rejects a missing, nil or empty-string value;
`in` compares the (possibly nil) value against the allow-list with Go `==`. -/
def runValidation (emailOk : String → Bool) (regexOk : String → String → Bool)
    (entity : Entity) (v : Validation) : Except String Unit :=
  let value := entGet entity v.field
  match v.rule with
  | "required" =>
    match value with
    | none => .error v.message
    | some val =>
      if GoValue.beq val .vNull || GoValue.beq val (.vStr "") then .error v.message
      else .ok ()
  | "min_length" =>
    match value with
    | some (.vStr s) =>
      if (s.utf8ByteSize : Int) < goAsFloat v.value then .error v.message else .ok ()
    | _ => .ok ()
  | "max_length" =>
    match value with
    | some (.vStr s) =>
      if (s.utf8ByteSize : Int) > goAsFloat v.value then .error v.message else .ok ()
    | _ => .ok ()
  | "email_format" =>
    match value with
    | some (.vStr s) => if !(emailOk s) then .error v.message else .ok ()
    | _ => .ok ()
  | "regex" =>
    match value with
    | some (.vStr s) =>
      if !(regexOk (goAsStr v.value) s) then .error v.message else .ok ()
    | _ => .ok ()
  | "in" =>
    match v.value with
    | .vList allowed =>
      if allowed.any (fun a => GoValue.beq (entGetD entity v.field) a) then .ok ()
      else .error v.message
    | _ => .ok ()
  | _ => .ok ()

/-- evaluateSingleCondition mirrors `Executor.evaluateSingleCondition`
(sdk/hooks/executor.go lines 255-293). -/
def evaluateSingleCondition (cond0 : String) (old new : Entity) : Bool :=
  let pick : Option (Entity × String) :=
    if cond0.startsWith "old." then some (old, cond0.drop 4)
    else if cond0.startsWith "new." then some (new, cond0.drop 4)
    else none
  match pick with
  | none => false
  | some (entity, cond) =>
    let parsed : String × String × String :=
      let pe := cond.splitOn "=="
      if pe.length > 1 then
        ((pe.headD "").trim, "==", trimQuoteChars ((pe.getD 1 "").trim))
      else
        let pn := cond.splitOn "!="
        if pn.length > 1 then
          ((pn.headD "").trim, "!=", trimQuoteChars ((pn.getD 1 "").trim))
        else ("", "", "")
    let entityValue := goAsStr (entGetD entity parsed.1)
    match parsed.2.1 with
    | "==" => entityValue == parsed.2.2
    | "!=" => entityValue != parsed.2.2
    | _ => false

/-- evaluateCondition mirrors `Executor.evaluateCondition`: the `&&`-joined
parts must all hold. -/
def evaluateCondition (condition : String) (old new : Entity) : Bool :=
  (condition.splitOn "&&").all (fun part => evaluateSingleCondition part.trim old new)

/-- fieldChanged mirrors `Executor.fieldChanged`. -/
def fieldChanged (old new : Entity) (field : String) : Bool :=
  !(GoValue.beq (entGetD old field) (entGetD new field))

/-- Validation loop shared by the pre-create and pre-update phases. -/
def runValidations (emailOk : String → Bool) (regexOk : String → String → Bool)
    (entity : Entity) : List Validation → Except String Unit
  | [] => .ok ()
  | v :: rest =>
    match runValidation emailOk regexOk entity v with
    | .error e => .error e
    | .ok _ => runValidations emailOk regexOk entity rest

/-- Action loop of the post-operation phases; an unregistered name is a
no-op. -/
def runActions (reg : String → Option (Entity → Except String Unit))
    (entity : Entity) : List String → Except String Unit
  | [] => .ok ()
  | a :: rest =>
    match reg a with
    | some h =>
      match h entity with
      | .error e => .error ("action " ++ a ++ " failed: " ++ e)
      | .ok _ => runActions reg entity rest
    | none => runActions reg entity rest

/-- Business-rule loop of the pre-update phase. -/
def runRules (old new : Entity) : List Rule → Except String Unit
  | [] => .ok ()
  | r :: rest =>
    if evaluateCondition r.condition old new then
      if r.action == "reject" then .error r.message else runRules old new rest
    else runRules old new rest

/-- Field-change trigger loop of the post-update phase. -/
def runTriggers (reg : String → Option (Entity → Entity → String → Except String Unit))
    (old new : Entity) : List Trigger → Except String Unit
  | [] => .ok ()
  | t :: rest =>
    if fieldChanged old new t.onFieldChange then
      match reg t.action with
      | some h =>
        match h old new t.onFieldChange with
        | .error e => .error ("trigger " ++ t.action ++ " failed: " ++ e)
        | .ok _ => runTriggers reg old new rest
      | none => runTriggers reg old new rest
    else runTriggers reg old new rest

/-- Check loop of the pre-delete phase. -/
def runChecks (reg : String → Option (Entity → Except String Unit))
    (entity : Entity) : List String → Except String Unit
  | [] => .ok ()
  | c :: rest =>
    match reg c with
    | some h =>
      match h entity with
      | .error e => .error ("check " ++ c ++ " failed: " ++ e)
      | .ok _ => runChecks reg entity rest
    | none => runChecks reg entity rest

/-- preCreateH mirrors `Executor.PreCreate` (sdk/hooks/executor.go lines
56-69). -/
def preCreateH (hooks : Hooks) (emailOk : String → Bool)
    (regexOk : String → String → Bool) (entity : Entity) : Except String Unit :=
  if !hooks.preCreate.enabled then .ok ()
  else runValidations emailOk regexOk entity hooks.preCreate.validations

/-- postCreateH mirrors `Executor.PostCreate` (lines 72-87). -/
def postCreateH (hooks : Hooks)
    (actionReg : String → Option (Entity → Except String Unit))
    (entity : Entity) : Except String Unit :=
  if !hooks.postCreate.enabled then .ok ()
  else runActions actionReg entity hooks.postCreate.actions

/-- preUpdateH mirrors `Executor.PreUpdate` (lines 90-112). -/
def preUpdateH (hooks : Hooks) (emailOk : String → Bool)
    (regexOk : String → String → Bool) (old new : Entity) : Except String Unit :=
  if !hooks.preUpdate.enabled then .ok ()
  else
    match runValidations emailOk regexOk new hooks.preUpdate.validations with
    | .error e => .error e
    | .ok _ => runRules old new hooks.preUpdate.rules

/-- postUpdateH mirrors `Executor.PostUpdate` (lines 115-141). -/
def postUpdateH (hooks : Hooks)
    (triggerReg : String → Option (Entity → Entity → String → Except String Unit))
    (actionReg : String → Option (Entity → Except String Unit))
    (old new : Entity) : Except String Unit :=
  if !hooks.postUpdate.enabled then .ok ()
  else
    match runTriggers triggerReg old new hooks.postUpdate.triggers with
    | .error e => .error e
    | .ok _ => runActions actionReg new hooks.postUpdate.actions

/-- preDeleteH mirrors `Executor.PreDelete` (lines 144-159). -/
def preDeleteH (hooks : Hooks)
    (checkReg : String → Option (Entity → Except String Unit))
    (entity : Entity) : Except String Unit :=
  if !hooks.preDelete.enabled then .ok ()
  else runChecks checkReg entity hooks.preDelete.checks

/-- postDeleteH mirrors `Executor.PostDelete` (lines 162-176). -/
def postDeleteH (hooks : Hooks)
    (actionReg : String → Option (Entity → Except String Unit))
    (entity : Entity) : Except String Unit :=
  if !hooks.postDelete.enabled then .ok ()
  else runActions actionReg entity hooks.postDelete.actions

end Hx

/-- Well-formedness of a leaf per the spec's operator arity: `in` / `not_in`
take a list value, `between` takes exactly two values. -/
def wfLeaf (c : Qry.Condition) : Bool :=
  match c.op with
  | "in" | "not_in" =>
    (match c.value with | .vList _ => true | _ => false)
  | "between" =>
    (match c.value with | .vList [_, _] => true | _ => false)
  | _ => true

/-- Argument values a leaf contributes per the spec's operator semantics:
one value for a scalar comparison, one per element for `in` / `not_in`,
none for the null tests, the two inclusive bounds for `between`. -/
def specLeafArgs (c : Qry.Condition) : List GoValue :=
  match c.op with
  | "in" | "not_in" =>
    (match c.value with | .vList vs => vs | _ => [])
  | "is_null" | "is_not_null" => []
  | "between" =>
    (match c.value with | .vList [a, b] => [a, b] | _ => [])
  | _ => [c.value]

/-- Well-formedness of a condition tree, walked as the compiler walks it. -/
def wfTree : List Qry.Condition → Bool
  | [] => true
  | .mk f o v orL andL :: rest =>
    if orL.length > 0 then wfTree orL && wfTree rest
    else if andL.length > 0 then wfTree andL && wfTree rest
    else wfLeaf (.mk f o v orL andL) && wfTree rest

/-- Argument values of a condition tree in traversal order, per the spec:
group arguments in child order, then the remaining siblings. -/
def specTraversalArgs : List Qry.Condition → List GoValue
  | [] => []
  | .mk f o v orL andL :: rest =>
    (if orL.length > 0 then specTraversalArgs orL
     else if andL.length > 0 then specTraversalArgs andL
     else specLeafArgs (.mk f o v orL andL)) ++ specTraversalArgs rest

/-- Number of positional placeholders in a SQL fragment, counted as dollar
characters: every emitted placeholder contributes exactly one, and no other
emitted text contains one (proved below for the compiled fragments). -/
def dollars (s : String) : Nat := s.data.count (Char.ofNat 36)

/-- Fuel-driven twin of `replaceAllChars` (structurally recursive, so the
kernel can evaluate it); proved equal under an adequate fuel bound. -/
def replaceAllCharsF : Nat → List Char → List Char → List Char → List Char
  | _, _, _, [] => []
  | 0, _, _, l => l
  | fuel + 1, old, new, c :: rest =>
    if old.isPrefixOf (c :: rest) then
      new ++ replaceAllCharsF fuel old new (List.drop (old.length - 1) rest)
    else
      c :: replaceAllCharsF fuel old new rest

/-- Fuel-driven twin of `goReplaceAll`. -/
def goReplaceAllF (s old new : String) : String :=
  ⟨replaceAllCharsF s.data.length old.data new.data s.data⟩

/-- Fuel-driven twin of `buildCondParts` (structurally recursive on the
fuel, so the kernel can evaluate it); proved equal under the `sizeOf`
fuel bound. -/
def buildCondPartsF (props : List String) :
    Nat → List Qry.Condition → Nat → Except String (List String × List GoValue × Nat)
  | _, [], i => .ok ([], [], i)
  | 0, _ :: _, i => .ok ([], [], i)
  | fuel + 1, .mk f o v orL andL :: rest, i =>
    if orL.length > 0 then
      match buildCondPartsF props fuel orL i with
      | .error e => .error e
      | .ok (orParts, orParams, idx) =>
        match buildCondPartsF props fuel rest idx with
        | .error e => .error e
        | .ok (parts, params, idx2) =>
          .ok (("(" ++ goReplaceAllF (goJoin orParts " AND ") " AND " " OR " ++ ")") :: parts,
               orParams ++ params, idx2)
    else if andL.length > 0 then
      match buildCondPartsF props fuel andL i with
      | .error e => .error e
      | .ok (andParts, andParams, idx) =>
        match buildCondPartsF props fuel rest idx with
        | .error e => .error e
        | .ok (parts, params, idx2) =>
          .ok (("(" ++ goJoin andParts " AND " ++ ")") :: parts,
               andParams ++ params, idx2)
    else if props.contains f then
      match Qry.buildSingleCondition (.mk f o v orL andL) i with
      | (s, ps, idx) =>
        match buildCondPartsF props fuel rest idx with
        | .error e => .error e
        | .ok (parts, params, idx2) => .ok (s :: parts, ps ++ params, idx2)
    else .error ("invalid field: " ++ f)

def fixTicketNode : DalM.Node :=
  { name := "Ticket", table := "tickets",
    properties := [⟨"id", "uuid", true, ""⟩, ⟨"tenant_id", "uuid", true, ""⟩,
                   ⟨"status", "text", false, ""⟩, ⟨"created_at", "timestamp", false, ""⟩,
                   ⟨"updated_at", "timestamp", false, ""⟩, ⟨"version", "integer", false, ""⟩],
    relations := [], dalConfig := ⟨false, true⟩ }

def fixQuery : Qry.GoQuery :=
  { select := [], fromTable := "tickets",
    whereConds := [.mk "status" "eq" (.vStr "open") [] []],
    orderBy := [], limit := 0, offset := 0, relations := [] }

def fixC5Props : List String := ["status", "priority", "created_at"]

def fixC5Conds : List Qry.Condition :=
  [ .mk "status" "eq" (.vStr "open") [] [],
    .mk "" "" .vNull
      [ .mk "priority" "in" (.vList [.vStr "high", .vStr "critical"]) [] [],
        .mk "" "" .vNull []
          [ .mk "created_at" "between" (.vList [.vTime 1, .vTime 2]) [] [],
            .mk "status" "is_null" .vNull [] [] ] ] [] ]

def fixC3Conds : List Qry.Condition :=
  [ .mk "" "" .vNull
      [ .mk "" "" .vNull []
          [ .mk "a" "eq" (.vStr "1") [] [], .mk "b" "eq" (.vStr "2") [] [] ],
        .mk "c" "eq" (.vStr "3") [] [] ] [] ]

def fixC3Between : List Qry.Condition :=
  [ .mk "" "" .vNull
      [ .mk "created_at" "between" (.vList [.vTime 1, .vTime 2]) [] [],
        .mk "c" "eq" (.vStr "3") [] [] ] [] ]

def fixRow : Entity :=
  [("id", .vStr "e1"), ("tenant_id", .vStr "t1"), ("status", .vStr "open"),
   ("version", .vInt 1), ("created_at", .vTime 0), ("updated_at", .vTime 0)]

def fixRowAfter1 : Entity :=
  [("id", .vStr "e1"), ("tenant_id", .vStr "t1"), ("status", .vStr "closed"),
   ("version", .vInt 1), ("created_at", .vTime 0), ("updated_at", .vTime 5)]

def fixRowAfter2 : Entity :=
  [("id", .vStr "e1"), ("tenant_id", .vStr "t1"), ("status", .vStr "reopened"),
   ("version", .vInt 1), ("created_at", .vTime 0), ("updated_at", .vTime 7)]

def fixAddColumn : Mig.Migration :=
  { mtype := "ADD_COLUMN", table := "tickets", column := "priority",
    property := some ⟨"priority", "string", false, .vStr ""⟩,
    indexName := "", indexFields := [], indexUnique := false }

def fixRelNode : DalM.Node :=
  { name := "Ticket", table := "tickets",
    properties := [⟨"id", "uuid", true, ""⟩, ⟨"customer_id", "uuid", false, ""⟩],
    relations := [⟨"customer", "belongs_to", "customer", "Customer", "customer_id", "id"⟩],
    dalConfig := ⟨false, false⟩ }

def fixDisabledSlot : Hx.HookConfig :=
  { enabled := false,
    validations := [⟨"title", "required", .vNull, "title is required"⟩],
    rules := [⟨"old.status == 'closed'", "reject", "closed tickets are immutable"⟩],
    actions := ["notify_assignee"],
    triggers := [⟨"status", "on_status_change"⟩],
    checks := ["check_no_open_children"] }

def fixDisabledHooks : Hx.Hooks :=
  { preCreate := fixDisabledSlot, postCreate := fixDisabledSlot,
    preUpdate := fixDisabledSlot, postUpdate := fixDisabledSlot,
    preDelete := fixDisabledSlot, postDelete := fixDisabledSlot }

/-- Unknown-field test over a condition tree, walked exactly as the compiler
walks it: an OR / AND group checks its children then the remaining
siblings; a leaf checks its own field. -/
def hasUnknownField (props : List String) : List Qry.Condition → Bool
  | [] => false
  | .mk f _ _ orL andL :: rest =>
    if orL.length > 0 then
      hasUnknownField props orL || hasUnknownField props rest
    else if andL.length > 0 then
      hasUnknownField props andL || hasUnknownField props rest
    else
      !(props.contains f) || hasUnknownField props rest

def fixQeNode : QE.NodeDefinition :=
  { name := "Ticket", table := "tickets",
    properties := [⟨"status", "string", false, .vStr ""⟩],
    dal := ⟨false, false⟩ }

theorem data_append (a b : String) : (a ++ b).data = a.data ++ b.data := rfl

theorem dollars_append (a b : String) : dollars (a ++ b) = dollars a + dollars b := by
  simp [dollars, data_append, List.count_append]

theorem dollars_of_not_mem (s : String) (h : Char.ofNat 36 ∉ s.data) : dollars s = 0 :=
  List.count_eq_zero.mpr h

theorem digit_ne_dollar (k : Nat) (hk : k < 10) : Char.ofNat (48 + k) ≠ Char.ofNat 36 := by
  interval_cases k <;> decide

theorem natDigitsCore_no_dollar (fuel : Nat) :
    ∀ n acc, Char.ofNat 36 ∉ acc → Char.ofNat 36 ∉ natDigitsCore fuel n acc := by
  induction fuel with
  | zero => intro n acc h; simp [natDigitsCore, h]
  | succ m ih =>
    intro n acc h
    have hne : Char.ofNat (48 + n % 10) ≠ Char.ofNat 36 :=
      digit_ne_dollar (n % 10) (Nat.mod_lt n (by omega))
    have h2 : Char.ofNat 36 ∉ Char.ofNat (48 + n % 10) :: acc := by
      intro hmem
      rcases List.mem_cons.mp hmem with h3 | h3
      · exact hne h3.symm
      · exact h h3
    simp only [natDigitsCore]
    split
    · exact h2
    · exact ih (n / 10) _ h2

theorem dollars_natToStr (n : Nat) : dollars (natToStr n) = 0 := by
  apply dollars_of_not_mem
  exact natDigitsCore_no_dollar (n + 1) n [] (by simp)

theorem dollars_ph (i : Nat) : dollars (ph i) = 1 := by
  have h1 : dollars "$" = 1 := by decide
  simp [ph, dollars_append, dollars_natToStr, h1]

theorem dollars_join (sep : String) (hsep : dollars sep = 0) :
    ∀ parts : List String, dollars (goJoin parts sep) = (parts.map dollars).sum := by
  intro parts
  induction parts with
  | nil => simp [goJoin]; decide
  | cons s rest ih =>
    cases rest with
    | nil => simp [goJoin]
    | cons t r =>
      rw [show goJoin (s :: t :: r) sep = s ++ sep ++ goJoin (t :: r) sep from rfl]
      rw [dollars_append, dollars_append, hsep, ih]
      simp

theorem count_replaceAllChars (old new : List Char)
    (h0 : old ≠ []) (h1 : Char.ofNat 36 ∉ old) (h2 : Char.ofNat 36 ∉ new) :
    ∀ l, (replaceAllChars old new l).count (Char.ofNat 36) = l.count (Char.ofNat 36) := by
  intro l
  induction l using replaceAllChars.induct old new with
  | case1 => simp [replaceAllChars]
  | case2 c rest hpre ih =>
    rw [replaceAllChars, if_pos hpre]
    obtain ⟨t, ht⟩ := List.isPrefixOf_iff_prefix.mp hpre
    rcases old with _ | ⟨o, os⟩
    · exact absurd rfl h0
    · simp only [List.cons_append] at ht
      obtain ⟨hoc, hrt⟩ := List.cons_eq_cons.mp ht
      have hdrop : List.drop ((o :: os).length - 1) rest = t := by
        rw [← hrt]
        simp
      rw [List.count_append, ih, hdrop]
      have hcnew : new.count (Char.ofNat 36) = 0 := List.count_eq_zero.mpr h2
      have hc : ¬(c = Char.ofNat 36) := by
        intro h
        exact h1 (by rw [hoc, h]; exact List.mem_cons_self _ _)
      have hcos : os.count (Char.ofNat 36) = 0 :=
        List.count_eq_zero.mpr (fun hm => h1 (List.mem_cons_of_mem _ hm))
      rw [← hrt, List.count_cons, List.count_append, hcnew, hcos]
      simp [hc]
  | case3 c rest hpre ih =>
    rw [replaceAllChars, if_neg hpre]
    simp [List.count_cons, ih]

theorem dollars_goReplaceAll (s old new : String)
    (h0 : old.data ≠ []) (h1 : Char.ofNat 36 ∉ old.data) (h2 : Char.ofNat 36 ∉ new.data) :
    dollars (goReplaceAll s old new) = dollars s := by
  simp only [dollars, goReplaceAll]
  exact count_replaceAllChars old.data new.data h0 h1 h2 s.data

theorem phRange_dollars_sum (n : Nat) : ∀ s, ((Qry.phRange s n).map dollars).sum = n := by
  induction n with
  | zero => intro s; simp [Qry.phRange]
  | succ m ih => intro s; simp [Qry.phRange, dollars_ph, ih]; omega

theorem buildSingleCondition_spec (c : Qry.Condition) (i : Nat)
    (hf : Char.ofNat 36 ∉ c.field.data) (hwf : wfLeaf c = true) :
    (Qry.buildSingleCondition c i).2.2 = i + (Qry.buildSingleCondition c i).2.1.length ∧
    dollars (Qry.buildSingleCondition c i).1 = (Qry.buildSingleCondition c i).2.1.length ∧
    (Qry.buildSingleCondition c i).2.1 = specLeafArgs c := by
  rcases c with ⟨f, o, v, orL, andL⟩
  have hf0 : dollars f = 0 := dollars_of_not_mem _ hf
  simp only [wfLeaf, Qry.Condition.op, Qry.Condition.value] at hwf
  have hj : ∀ n s, dollars (goJoin (Qry.phRange s n) ", ") = n := by
    intro n s
    rw [dollars_join ", " (by decide)]
    exact phRange_dollars_sum n s
  have hin0 : dollars " IN (" = 0 := by decide
  have hnin0 : dollars " NOT IN (" = 0 := by decide
  have hrp0 : dollars ")" = 0 := by decide
  simp only [Qry.buildSingleCondition, specLeafArgs, Qry.Condition.op,
    Qry.Condition.field, Qry.Condition.value]
  split <;>
    simp_all [dollars_append, dollars_ph, hj, hf0, hin0, hnin0, hrp0] <;>
    first
      | decide
      | omega
      | (split <;> simp_all [dollars_append, dollars_ph, hj, hf0, hin0, hnin0, hrp0] <;>
          decide)

theorem dollars_orPart (parts : List String) :
    dollars ("(" ++ goReplaceAll (goJoin parts " AND ") " AND " " OR " ++ ")") =
      (parts.map dollars).sum := by
  rw [dollars_append, dollars_append]
  rw [dollars_goReplaceAll _ _ _ (by decide) (by decide) (by decide)]
  rw [dollars_join " AND " (by decide)]
  have h1 : dollars "(" = 0 := by decide
  have h2 : dollars ")" = 0 := by decide
  omega

theorem dollars_andPart (parts : List String) :
    dollars ("(" ++ goJoin parts " AND " ++ ")") = (parts.map dollars).sum := by
  rw [dollars_append, dollars_append, dollars_join " AND " (by decide)]
  have h1 : dollars "(" = 0 := by decide
  have h2 : dollars ")" = 0 := by decide
  omega

theorem buildCondParts_spec (props : List String)
    (hprops : ∀ p ∈ props, Char.ofNat 36 ∉ p.data) :
    ∀ (conds : List Qry.Condition) (i : Nat),
      ∀ parts ps j, wfTree conds = true →
        Qry.buildCondParts props conds i = .ok (parts, ps, j) →
        j = i + ps.length ∧ (parts.map dollars).sum = ps.length ∧
          ps = specTraversalArgs conds := by
  intro conds i
  induction conds, i using Qry.buildCondParts.induct props with
  | case1 i =>
    intro parts ps j _ h
    simp only [Qry.buildCondParts, Except.ok.injEq, Prod.mk.injEq] at h
    obtain ⟨h1, h2, h3⟩ := h
    subst h1; subst h2; subst h3
    simp [specTraversalArgs]
  | case2 f o v orL andL rest i hlen e hOr ih =>
    intro parts ps j hwf h
    simp only [Qry.buildCondParts] at h
    rw [if_pos hlen] at h
    simp only [hOr] at h
    exact absurd h (by simp)
  | case3 f o v orL andL rest i hlen p1 a1 i1 hOr e hRest ih1 ih2 =>
    intro parts ps j hwf h
    simp only [Qry.buildCondParts] at h
    rw [if_pos hlen] at h
    simp only [hOr, hRest] at h
    exact absurd h (by simp)
  | case4 f o v orL andL rest i hlen p1 a1 i1 hOr p2 a2 i2 hRest ih1 ih2 =>
    intro parts ps j hwf h
    simp only [Qry.buildCondParts] at h
    rw [if_pos hlen] at h
    simp only [hOr, hRest, Except.ok.injEq, Prod.mk.injEq] at h
    obtain ⟨h1, h2, h3⟩ := h
    subst h1; subst h2; subst h3
    simp only [wfTree] at hwf
    rw [if_pos hlen] at hwf
    rw [Bool.and_eq_true] at hwf
    obtain ⟨hwf1, hwf2⟩ := hwf
    obtain ⟨e1, e2, e3⟩ := ih1 p1 a1 i1 hwf1 hOr
    obtain ⟨g1, g2, g3⟩ := ih2 p2 a2 i2 hwf2 hRest
    refine ⟨?_, ?_, ?_⟩
    · simp only [List.length_append]; omega
    · simp only [List.map_cons, List.sum_cons, dollars_orPart, e2, g2, List.length_append]
    · simp only [specTraversalArgs]
      rw [if_pos hlen, e3, g3]
  | case5 f o v orL andL rest i hnor hlen e hAnd ih =>
    intro parts ps j hwf h
    simp only [Qry.buildCondParts] at h
    rw [if_neg hnor, if_pos hlen] at h
    simp only [hAnd] at h
    exact absurd h (by simp)
  | case6 f o v orL andL rest i hnor hlen p1 a1 i1 hAnd e hRest ih1 ih2 =>
    intro parts ps j hwf h
    simp only [Qry.buildCondParts] at h
    rw [if_neg hnor, if_pos hlen] at h
    simp only [hAnd, hRest] at h
    exact absurd h (by simp)
  | case7 f o v orL andL rest i hnor hlen p1 a1 i1 hAnd p2 a2 i2 hRest ih1 ih2 =>
    intro parts ps j hwf h
    simp only [Qry.buildCondParts] at h
    rw [if_neg hnor, if_pos hlen] at h
    simp only [hAnd, hRest, Except.ok.injEq, Prod.mk.injEq] at h
    obtain ⟨h1, h2, h3⟩ := h
    subst h1; subst h2; subst h3
    simp only [wfTree] at hwf
    rw [if_neg hnor, if_pos hlen] at hwf
    rw [Bool.and_eq_true] at hwf
    obtain ⟨hwf1, hwf2⟩ := hwf
    obtain ⟨e1, e2, e3⟩ := ih1 p1 a1 i1 hwf1 hAnd
    obtain ⟨g1, g2, g3⟩ := ih2 p2 a2 i2 hwf2 hRest
    refine ⟨?_, ?_, ?_⟩
    · simp only [List.length_append]; omega
    · simp only [List.map_cons, List.sum_cons, dollars_andPart, e2, g2, List.length_append]
    · simp only [specTraversalArgs]
      rw [if_neg hnor, if_pos hlen, e3, g3]
  | case8 f o v orL andL rest i hnor hnand hcon s0 ps0 idx hbsc e hRest ih =>
    intro parts ps j hwf h
    simp only [Qry.buildCondParts] at h
    rw [if_neg hnor, if_neg hnand, if_pos hcon] at h
    simp only [hbsc, hRest] at h
    exact absurd h (by simp)
  | case9 f o v orL andL rest i hnor hnand hcon s0 ps0 idx hbsc p2 a2 i2 hRest ih =>
    intro parts ps j hwf h
    simp only [Qry.buildCondParts] at h
    rw [if_neg hnor, if_neg hnand, if_pos hcon] at h
    simp only [hbsc, hRest, Except.ok.injEq, Prod.mk.injEq] at h
    obtain ⟨h1, h2, h3⟩ := h
    subst h1; subst h2; subst h3
    simp only [wfTree] at hwf
    rw [if_neg hnor, if_neg hnand] at hwf
    rw [Bool.and_eq_true] at hwf
    obtain ⟨hwfl, hwf2⟩ := hwf
    have hfmem : f ∈ props := by
      simpa using hcon
    have hfnd : Char.ofNat 36 ∉ (Qry.Condition.mk f o v orL andL).field.data := by
      simpa [Qry.Condition.field] using hprops f hfmem
    obtain ⟨b1, b2, b3⟩ := buildSingleCondition_spec (.mk f o v orL andL) i hfnd hwfl
    simp only [hbsc] at b1 b2 b3
    obtain ⟨g1, g2, g3⟩ := ih p2 a2 i2 hwf2 hRest
    refine ⟨?_, ?_, ?_⟩
    · simp only [List.length_append]; omega
    · simp only [List.map_cons, List.sum_cons, b2, g2, List.length_append]
    · simp only [specTraversalArgs]
      rw [if_neg hnor, if_neg hnand, b3, g3]
  | case10 f o v orL andL rest i hnor hnand hcon =>
    intro parts ps j hwf h
    simp only [Qry.buildCondParts] at h
    rw [if_neg hnor, if_neg hnand, if_neg hcon] at h
    exact absurd h (by simp)

theorem buildConditions_spec (props : List String)
    (hprops : ∀ p ∈ props, Char.ofNat 36 ∉ p.data)
    (conds : List Qry.Condition) (i : Nat) (s : String) (ps : List GoValue) (j : Nat)
    (hwf : wfTree conds = true)
    (h : Qry.buildConditions props conds i = .ok (s, ps, j)) :
    dollars s = ps.length ∧ j = i + ps.length ∧ ps = specTraversalArgs conds := by
  simp only [Qry.buildConditions] at h
  rcases hcp : Qry.buildCondParts props conds i with e | ⟨parts, ps2, j2⟩
  · rw [hcp] at h; exact absurd h (by simp)
  · rw [hcp] at h
    simp only [Except.ok.injEq, Prod.mk.injEq] at h
    obtain ⟨h1, h2, h3⟩ := h
    obtain ⟨e1, e2, e3⟩ := buildCondParts_spec props hprops conds i parts ps2 j2 hwf hcp
    subst h2; subst h3
    rw [← h1, dollars_join " AND " (by decide)]
    exact ⟨e2, e1, e3⟩

theorem replaceAllCharsF_eq (old new : List Char) :
    ∀ fuel l, l.length ≤ fuel →
      replaceAllCharsF fuel old new l = replaceAllChars old new l := by
  intro fuel
  induction fuel with
  | zero =>
    intro l hl
    cases l with
    | nil => simp [replaceAllCharsF, replaceAllChars]
    | cons c rest => simp at hl
  | succ m ih =>
    intro l hl
    cases l with
    | nil => simp [replaceAllCharsF, replaceAllChars]
    | cons c rest =>
      rw [replaceAllChars]
      simp only [replaceAllCharsF]
      by_cases hp : old.isPrefixOf (c :: rest)
      · rw [if_pos hp, if_pos hp]
        congr 1
        apply ih
        simp only [List.length_drop]
        simp only [List.length_cons] at hl
        omega
      · rw [if_neg hp, if_neg hp]
        congr 1
        apply ih
        simp only [List.length_cons] at hl
        omega

theorem goReplaceAllF_eq (s old new : String) :
    goReplaceAllF s old new = goReplaceAll s old new := by
  simp only [goReplaceAllF, goReplaceAll]
  rw [replaceAllCharsF_eq old.data new.data s.data.length s.data (Nat.le_refl _)]

theorem buildCondPartsF_eq (props : List String) :
    ∀ fuel (conds : List Qry.Condition), sizeOf conds ≤ fuel →
      ∀ i, buildCondPartsF props fuel conds i = Qry.buildCondParts props conds i := by
  intro fuel
  induction fuel with
  | zero =>
    intro conds h i
    cases conds with
    | nil => simp [buildCondPartsF, Qry.buildCondParts]
    | cons c rest =>
      simp [List.cons.sizeOf_spec] at h
  | succ m ih =>
    intro conds h i
    cases conds with
    | nil => simp [buildCondPartsF, Qry.buildCondParts]
    | cons c rest =>
      obtain ⟨f, o, v, orL, andL⟩ := c
      have hb : sizeOf orL ≤ m ∧ sizeOf andL ≤ m ∧ sizeOf rest ≤ m := by
        simp [List.cons.sizeOf_spec, Qry.Condition.mk.sizeOf_spec] at h
        refine ⟨by omega, by omega, by omega⟩
      rw [Qry.buildCondParts]
      simp only [buildCondPartsF, ih orL hb.1, ih andL hb.2.1, ih rest hb.2.2,
        goReplaceAllF_eq]

theorem goJoin_cons_head (a : String) (l : List String) (sep : String) :
    ∃ t, goJoin (a :: l) sep = a ++ t := by
  cases l with
  | nil => exact ⟨"", by simp [goJoin, String.append_empty]⟩
  | cons b r => exact ⟨sep ++ goJoin (b :: r) sep, by simp [goJoin, String.append_assoc]⟩

theorem buildCondParts_tenant (props : List String) (tid : String)
    (rest : List Qry.Condition) (hcon : props.contains "tenant_id" = true) :
    Qry.buildCondParts props
        (Qry.Condition.mk "tenant_id" "eq" (.vStr tid) [] [] :: rest) 1 =
      (match Qry.buildCondParts props rest 2 with
       | .error e => .error e
       | .ok (parts, params, idx2) =>
         .ok ("tenant_id = $1" :: parts, GoValue.vStr tid :: params, idx2)) := by
  have hmem : "tenant_id" ∈ props := by simpa using hcon
  have hfrag : "tenant_id = " ++ ph 1 = "tenant_id = $1" := by decide
  rcases hrest : Qry.buildCondParts props rest 2 with e | ⟨p2, a2, i2⟩ <;>
    simp [Qry.buildCondParts, hmem, hrest, Qry.buildSingleCondition,
      Qry.Condition.op, Qry.Condition.field, Qry.Condition.value, hfrag]

theorem buildCondParts_tenant_invalid (props : List String) (tid : String)
    (rest : List Qry.Condition) (hcon : props.contains "tenant_id" = false) :
    Qry.buildCondParts props
        (Qry.Condition.mk "tenant_id" "eq" (.vStr tid) [] [] :: rest) 1 =
      .error ("invalid field: " ++ "tenant_id") := by
  have hmem : "tenant_id" ∉ props := by simpa using hcon
  simp [Qry.buildCondParts, hmem]

theorem dalAugmentWhere_eq (tid : String) (sd : Bool) (conds : List Qry.Condition) :
    DalM.dalAugmentWhere tid sd conds =
      Qry.Condition.mk "tenant_id" "eq" (.vStr tid) [] [] ::
        (conds ++
          if sd then [Qry.Condition.mk "deleted_at" "is_null" .vNull [] []] else []) := by
  cases sd <;> simp [DalM.dalAugmentWhere]

/-- C1: every list/query statement compiled through `DAL.Execute` carries the
tenant-equality predicate as the first WHERE predicate — the where clause the
condition compiler emits begins with `tenant_id = $1`, the first bound
argument is the tenant id, and every caller-supplied filter compiles after
it — and the dal-service `buildWhereClause` likewise puts `tenant_id = $1`
first with the tenant id as first parameter. -/
theorem C1_tenant_predicate_first :
    (∀ (node : DalM.Node) (tid : String) (q : Qry.GoQuery) (sql : String)
       (params : List GoValue),
       DalM.dalExecuteBuild node tid q = .ok (sql, params) →
       params.head? = some (.vStr tid) ∧
       ∃ wSQL wps jdx,
         Qry.buildConditions (DalM.propNames node)
             (DalM.dalAugmentWhere tid node.dalConfig.softDelete q.whereConds) 1 =
           .ok (wSQL, wps, jdx) ∧
         (∃ t, wSQL = "tenant_id = $1" ++ t) ∧
         wps.head? = some (.vStr tid) ∧ params = wps ∧
         ∃ pre suf, sql = pre ++ " WHERE " ++ wSQL ++ suf) ∧
    (∀ (conds : List QE.Condition) (tid : String) (node : QE.NodeDefinition),
       (∃ t, (QE.buildWhereClause conds tid node).1 = "tenant_id = $1" ++ t) ∧
       (QE.buildWhereClause conds tid node).2.head? = some (.vStr tid)) := by
  constructor
  · intro node tid q sql params h
    simp only [DalM.dalExecuteBuild] at h
    rcases hS : Qry.buildSelectPart (DalM.propNames node) q.select with e | sel
    · simp [Qry.Build, hS] at h
    rcases hW : Qry.buildWherePart (DalM.propNames node)
        (DalM.dalAugmentWhere tid node.dalConfig.softDelete q.whereConds) with e | ⟨wPart, ps⟩
    · simp [Qry.Build, hS, hW] at h
    rcases hO : Qry.buildOrderPart (DalM.propNames node) q.orderBy with e | oPart
    · simp [Qry.Build, hS, hW, hO] at h
    simp only [Qry.Build, hS, hW, hO] at h
    simp only [Except.ok.injEq, Prod.mk.injEq] at h
    obtain ⟨hsql, hparams⟩ := h
    rw [dalAugmentWhere_eq] at hW
    simp only [Qry.buildWherePart, List.length_cons] at hW
    rw [if_pos (by omega)] at hW
    rcases hbc : Qry.buildConditions (DalM.propNames node)
        (Qry.Condition.mk "tenant_id" "eq" (.vStr tid) [] [] ::
          (q.whereConds ++
            if node.dalConfig.softDelete then
              [Qry.Condition.mk "deleted_at" "is_null" .vNull [] []] else [])) 1
        with e | ⟨w, wps, j⟩
    · rw [hbc] at hW; exact absurd hW (by simp)
    rw [hbc] at hW
    simp only [Except.ok.injEq, Prod.mk.injEq] at hW
    obtain ⟨hwp, hps⟩ := hW
    by_cases hcon : (DalM.propNames node).contains "tenant_id" = true
    · have ht := buildCondParts_tenant (DalM.propNames node) tid
        (q.whereConds ++
          if node.dalConfig.softDelete then
            [Qry.Condition.mk "deleted_at" "is_null" .vNull [] []] else []) hcon
      have hbc2 := hbc
      simp only [Qry.buildConditions, ht] at hbc2
      rcases hr2 : Qry.buildCondParts (DalM.propNames node)
          (q.whereConds ++
            if node.dalConfig.softDelete then
              [Qry.Condition.mk "deleted_at" "is_null" .vNull [] []] else []) 2
          with e | ⟨p2, a2, i2⟩
      · rw [hr2] at hbc2; exact absurd hbc2 (by simp)
      rw [hr2] at hbc2
      simp only [Except.ok.injEq, Prod.mk.injEq] at hbc2
      obtain ⟨hw2, hwps2, hj2⟩ := hbc2
      constructor
      · rw [← hparams, ← hps, ← hwps2]
        simp
      refine ⟨w, wps, j, ?_, ?_, ?_, ?_, ?_⟩
      · rw [dalAugmentWhere_eq]
        exact hbc
      · obtain ⟨t, hgj⟩ := goJoin_cons_head "tenant_id = $1" p2 " AND "
        exact ⟨t, by rw [← hw2, hgj]⟩
      · rw [← hwps2]; simp
      · rw [← hparams, ← hps]
      · refine ⟨sel ++ " FROM " ++ ("tenant_" ++ tid) ++ "." ++ q.fromTable,
          oPart ++ ((if q.limit > 0 then " LIMIT " ++ intToStr q.limit else "") ++
            (if q.offset > 0 then " OFFSET " ++ intToStr q.offset else "")), ?_⟩
        rw [← hsql, ← hwp]
        simp [String.append_assoc]
    · have hconf : (DalM.propNames node).contains "tenant_id" = false := by
        simpa using hcon
      have ht := buildCondParts_tenant_invalid (DalM.propNames node) tid
        (q.whereConds ++
          if node.dalConfig.softDelete then
            [Qry.Condition.mk "deleted_at" "is_null" .vNull [] []] else []) hconf
      simp only [Qry.buildConditions, ht] at hbc
      exact absurd hbc (by simp)
  · intro conds tid node
    rcases hwl : QE.whereLoop conds 1 with ⟨cl, ps⟩
    cases hsd : node.dal.softDelete <;>
      simp only [QE.buildWhereClause, hwl, hsd, if_true, if_false] <;>
      constructor
    · simpa using goJoin_cons_head "tenant_id = $1" cl " AND "
    · simp
    · simpa using goJoin_cons_head "tenant_id = $1" ("deleted_at IS NULL" :: cl) " AND "
    · simp


/-- Evaluation helper: when the WHERE stage's condition compilation result is
known and the filter is non-empty, `Build` reduces to its remaining stages. -/
theorem Build_eq_of_buildConditions (b : Qry.Builder) (q : Qry.GoQuery)
    (w : String) (ps : List GoValue) (j : Nat)
    (hne : q.whereConds.length > 0)
    (hbc : Qry.buildConditions b.properties q.whereConds 1 = .ok (w, ps, j)) :
    Qry.Build b q =
      (match Qry.buildSelectPart b.properties q.select with
       | .error e => .error e
       | .ok sel =>
         match Qry.buildOrderPart b.properties q.orderBy with
         | .error e => .error e
         | .ok oPart =>
           .ok (sel ++ " FROM " ++ b.schema ++ "." ++ q.fromTable ++ (" WHERE " ++ w) ++
                  oPart ++
                  (if q.limit > 0 then " LIMIT " ++ intToStr q.limit else "") ++
                  (if q.offset > 0 then " OFFSET " ++ intToStr q.offset else ""), ps)) := by
  unfold Qry.Build Qry.buildWherePart
  rw [if_pos hne, hbc]

theorem C1_witness :
    DalM.dalExecuteBuild fixTicketNode "t1" fixQuery =
      .ok ("SELECT * FROM tenant_t1.tickets WHERE tenant_id = $1 AND status = $2",
           [.vStr "t1", .vStr "open"]) ∧
    (([GoValue.vStr "t1", GoValue.vStr "open"] : List GoValue).head? =
        some (.vStr "t1") ∧
     ∃ wSQL wps jdx,
       Qry.buildConditions (DalM.propNames fixTicketNode)
           (DalM.dalAugmentWhere "t1" fixTicketNode.dalConfig.softDelete
             fixQuery.whereConds) 1 =
         .ok (wSQL, wps, jdx) ∧
       (∃ t, wSQL = "tenant_id = $1" ++ t) ∧
       wps.head? = some (.vStr "t1") ∧
       [GoValue.vStr "t1", GoValue.vStr "open"] = wps ∧
       ∃ pre suf,
         "SELECT * FROM tenant_t1.tickets WHERE tenant_id = $1 AND status = $2" =
           pre ++ " WHERE " ++ wSQL ++ suf) := by
  have key : Qry.buildCondParts (DalM.propNames fixTicketNode)
      (DalM.dalAugmentWhere "t1" fixTicketNode.dalConfig.softDelete fixQuery.whereConds)
      1 =
      .ok (["tenant_id = $1", "status = $2"], [.vStr "t1", .vStr "open"], 3) := by
    rw [← buildCondPartsF_eq (DalM.propNames fixTicketNode) 1000000
      (DalM.dalAugmentWhere "t1" fixTicketNode.dalConfig.softDelete fixQuery.whereConds)
      (by decide) 1]
    rfl
  have key2 : Qry.buildConditions (DalM.propNames fixTicketNode)
      (DalM.dalAugmentWhere "t1" fixTicketNode.dalConfig.softDelete fixQuery.whereConds)
      1 =
      .ok ("tenant_id = $1 AND status = $2", [.vStr "t1", .vStr "open"], 3) := by
    rw [Qry.buildConditions, key]
    rfl
  have hEval : DalM.dalExecuteBuild fixTicketNode "t1" fixQuery =
      .ok ("SELECT * FROM tenant_t1.tickets WHERE tenant_id = $1 AND status = $2",
           [.vStr "t1", .vStr "open"]) := by
    unfold DalM.dalExecuteBuild
    rw [Build_eq_of_buildConditions _ _ "tenant_id = $1 AND status = $2"
      [.vStr "t1", .vStr "open"] 3 (by decide) (by exact key2)]
    rfl
  exact ⟨hEval, C1_tenant_predicate_first.1 fixTicketNode "t1" fixQuery _ _ hEval⟩

/-- C3 (code bug): an `and` group nested below an `or` group does NOT keep
its own AND joiner — the or-branch text-replaces every " AND " of the joined
child fragment, so `(a AND b) OR c` compiles to `((a = $1 OR b = $2) OR c = $3)`,
and a `between` leaf under an `or` group even degenerates to the invalid
fragment `created_at BETWEEN $1 OR $2`. -/
theorem C3_nested_and_group_joined_with_or :
    Qry.buildConditions ["a", "b", "c"] fixC3Conds 1 =
      .ok ("((a = $1 OR b = $2) OR c = $3)",
           [.vStr "1", .vStr "2", .vStr "3"], 4) ∧
    Qry.buildConditions ["a", "b", "c", "created_at"] fixC3Between 1 =
      .ok ("(created_at BETWEEN $1 OR $2 OR c = $3)",
           [.vTime 1, .vTime 2, .vStr "3"], 4) := by
  constructor
  · have key : Qry.buildCondParts ["a", "b", "c"] fixC3Conds 1 =
        .ok (["((a = $1 OR b = $2) OR c = $3)"], [.vStr "1", .vStr "2", .vStr "3"], 4) := by
      rw [← buildCondPartsF_eq ["a", "b", "c"] 1000000 fixC3Conds (by decide) 1]
      rfl
    rw [Qry.buildConditions, key]
    rfl
  · have key : Qry.buildCondParts ["a", "b", "c", "created_at"] fixC3Between 1 =
        .ok (["(created_at BETWEEN $1 OR $2 OR c = $3)"],
             [.vTime 1, .vTime 2, .vStr "3"], 4) := by
      rw [← buildCondPartsF_eq ["a", "b", "c", "created_at"] 1000000 fixC3Between
        (by decide) 1]
      rfl
    rw [Qry.buildConditions, key]
    rfl

/-- C5: for every successfully compiled filter over a well-formed condition
tree (list values for in/not_in, two values for between) whose field names
carry no dollar character, the number of positional placeholders in the
emitted clause equals the number of emitted argument values, the placeholder
counter advances by exactly that count (placeholders are numbered
sequentially), and the arguments appear in traversal order of the tree. -/
theorem C5_placeholder_count_matches_args (props : List String)
    (conds : List Qry.Condition) (i : Nat) (s : String) (ps : List GoValue) (j : Nat)
    (hprops : ∀ p ∈ props, Char.ofNat 36 ∉ p.data)
    (hwf : wfTree conds = true)
    (h : Qry.buildConditions props conds i = .ok (s, ps, j)) :
    dollars s = ps.length ∧ j = i + ps.length ∧ ps = specTraversalArgs conds :=
  buildConditions_spec props hprops conds i s ps j hwf h

theorem C5_witness :
    (∀ p ∈ fixC5Props, Char.ofNat 36 ∉ p.data) ∧
    wfTree fixC5Conds = true ∧
    Qry.buildConditions fixC5Props fixC5Conds 1 =
      .ok ("status = $1 AND (priority IN ($2, $3) OR (created_at BETWEEN $4 OR $5 OR status IS NULL))",
           [.vStr "open", .vStr "high", .vStr "critical", .vTime 1, .vTime 2], 6) ∧
    (dollars "status = $1 AND (priority IN ($2, $3) OR (created_at BETWEEN $4 OR $5 OR status IS NULL))" =
        ([GoValue.vStr "open", GoValue.vStr "high", GoValue.vStr "critical",
          GoValue.vTime 1, GoValue.vTime 2] : List GoValue).length ∧
     6 = 1 + ([GoValue.vStr "open", GoValue.vStr "high", GoValue.vStr "critical",
          GoValue.vTime 1, GoValue.vTime 2] : List GoValue).length ∧
     [GoValue.vStr "open", GoValue.vStr "high", GoValue.vStr "critical",
          GoValue.vTime 1, GoValue.vTime 2] = specTraversalArgs fixC5Conds) := by
  have h1 : ∀ p ∈ fixC5Props, Char.ofNat 36 ∉ p.data := by decide
  have h2 : wfTree fixC5Conds = true := by
    simp [wfTree, wfLeaf, fixC5Conds, Qry.Condition.op, Qry.Condition.value]
  have key : Qry.buildCondParts fixC5Props fixC5Conds 1 =
      .ok (["status = $1",
            "(priority IN ($2, $3) OR (created_at BETWEEN $4 OR $5 OR status IS NULL))"],
           [.vStr "open", .vStr "high", .vStr "critical", .vTime 1, .vTime 2], 6) := by
    rw [← buildCondPartsF_eq fixC5Props 1000000 fixC5Conds (by decide) 1]
    rfl
  have h3 : Qry.buildConditions fixC5Props fixC5Conds 1 =
      .ok ("status = $1 AND (priority IN ($2, $3) OR (created_at BETWEEN $4 OR $5 OR status IS NULL))",
           [.vStr "open", .vStr "high", .vStr "critical", .vTime 1, .vTime 2], 6) := by
    rw [Qry.buildConditions, key]
    rfl
  exact ⟨h1, h2, h3,
    C5_placeholder_count_matches_args fixC5Props fixC5Conds 1 _ _ 6 h1 h2 h3⟩

/-- C2 (code bug): `DAL.Update` assigns `data["version"] = oldVersion + 1`
only after `BuildUpdate` has already produced the SET clause and parameters,
so the UPDATE never assigns `version` (and the optimistic-lock text is
appended after `RETURNING *`, visible in the statement below).  Updating the
row stored at version 1 succeeds but leaves version 1 in the store, and a
second update succeeds as well instead of failing with an optimistic
conflict — the claim requires version 2 after the first update and a
conflict on a second stale-version attempt. -/
theorem C2_update_never_increments_version :
    DalM.dalUpdate fixTicketNode [fixRow] "t1" "e1" [("status", .vStr "closed")] 5 =
      .ok ("UPDATE tenant_t1.tickets SET status = $1, updated_at = $2 WHERE id = $3 RETURNING * AND version = 1",
           fixRowAfter1, [fixRowAfter1]) ∧
    entGet fixRowAfter1 "version" = some (.vInt 1) ∧
    DalM.dalUpdate fixTicketNode [fixRowAfter1] "t1" "e1"
        [("status", .vStr "reopened")] 7 =
      .ok ("UPDATE tenant_t1.tickets SET status = $1, updated_at = $2 WHERE id = $3 RETURNING * AND version = 1",
           fixRowAfter2, [fixRowAfter2]) ∧
    entGet fixRowAfter2 "version" = some (.vInt 1) := by
  refine ⟨rfl, rfl, rfl, rfl⟩

/-- C6 (code bug): the bounded SELECT built by `DAL.Execute` carries the
caller's filter (`status = $2`), but the COUNT statement built a few lines
later is hard-coded to the tenant (and soft-delete) scope only and is
executed with the tenant id as its single argument — it does not share the
caller's filter, so the returned total reflects the whole tenant scope. -/
theorem C6_count_statement_drops_caller_filter :
    DalM.dalExecuteBuild fixTicketNode "t1" fixQuery =
      .ok ("SELECT * FROM tenant_t1.tickets WHERE tenant_id = $1 AND status = $2",
           [.vStr "t1", .vStr "open"]) ∧
    DalM.dalExecuteCount fixTicketNode "t1" =
      ("SELECT COUNT(*) FROM tenant_t1.tickets WHERE tenant_id = $1",
       [.vStr "t1"]) := by
  constructor
  · have key : Qry.buildCondParts (DalM.propNames fixTicketNode)
        (DalM.dalAugmentWhere "t1" fixTicketNode.dalConfig.softDelete
          fixQuery.whereConds) 1 =
        .ok (["tenant_id = $1", "status = $2"], [.vStr "t1", .vStr "open"], 3) := by
      rw [← buildCondPartsF_eq (DalM.propNames fixTicketNode) 1000000
        (DalM.dalAugmentWhere "t1" fixTicketNode.dalConfig.softDelete
          fixQuery.whereConds) (by decide) 1]
      rfl
    have key2 : Qry.buildConditions (DalM.propNames fixTicketNode)
        (DalM.dalAugmentWhere "t1" fixTicketNode.dalConfig.softDelete
          fixQuery.whereConds) 1 =
        .ok ("tenant_id = $1 AND status = $2", [.vStr "t1", .vStr "open"], 3) := by
      rw [Qry.buildConditions, key]
      rfl
    unfold DalM.dalExecuteBuild
    rw [Build_eq_of_buildConditions _ _ "tenant_id = $1 AND status = $2"
      [.vStr "t1", .vStr "open"] 3 (by decide) (by exact key2)]
    rfl
  · rfl

/-- C7 counterexample: with a store on which every DDL statement fails, the
first tenant's migration fails and `Migrate` returns that tenant's wrapped
error immediately — tenant `t2` is never attempted (no log entry), whereas
the claim says migration of the other tenants still proceeds. -/
theorem C7_counterexample_other_tenants_not_migrated :
    Mig.migrateTenants (fun _ => false) [fixAddColumn] ["t1", "t2"] =
      ([("t1", ["ALTER TABLE tenant_t1.tickets ADD COLUMN IF NOT EXISTS priority TEXT"])],
       some "migration failed for tenant t1: migration failed: ALTER TABLE tenant_t1.tickets ADD COLUMN IF NOT EXISTS priority TEXT") ∧
    (Mig.migrateTenants (fun _ => false) [fixAddColumn] ["t1", "t2"]).1.map
        (fun p => p.1) = ["t1"] := by
  exact ⟨rfl, rfl⟩

/-- C7 (amended): a failing operation aborts the remaining operations for
that tenant and the error is reported naming the tenant, but `Migrate`
returns that error immediately, so the tenants after the failing one are
not migrated at all. -/
theorem C7_amended_failure_reported_per_tenant_but_stops :
    (∀ (execOk : String → Bool) (t : String) (rest : List String)
       (migs : List Mig.Migration) (log : List String) (e : String),
       Mig.applyMigrations execOk ("tenant_" ++ t) migs = (log, some e) →
       Mig.migrateTenants execOk migs (t :: rest) =
         ([(t, log)], some ("migration failed for tenant " ++ t ++ ": " ++ e))) ∧
    (∀ (execOk : String → Bool) (schema : String) (m : Mig.Migration)
       (rest : List Mig.Migration),
       (Mig.generateSQL schema m == "") = false →
       execOk (Mig.generateSQL schema m) = false →
       Mig.applyMigrations execOk schema (m :: rest) =
         ([Mig.generateSQL schema m],
          some ("migration failed: " ++ Mig.generateSQL schema m))) := by
  constructor
  · intro execOk t rest migs log e h
    simp only [Mig.migrateTenants, h]
  · intro execOk schema m rest h1 h2
    simp only [Mig.applyMigrations, h1, h2]
    simp

theorem C7_witness :
    Mig.applyMigrations (fun _ => false) ("tenant_" ++ "t1") [fixAddColumn] =
      (["ALTER TABLE tenant_t1.tickets ADD COLUMN IF NOT EXISTS priority TEXT"],
       some "migration failed: ALTER TABLE tenant_t1.tickets ADD COLUMN IF NOT EXISTS priority TEXT") ∧
    Mig.migrateTenants (fun _ => false) [fixAddColumn] ["t1", "t2"] =
      ([("t1", ["ALTER TABLE tenant_t1.tickets ADD COLUMN IF NOT EXISTS priority TEXT"])],
       some ("migration failed for tenant " ++ "t1" ++ ": " ++
         "migration failed: ALTER TABLE tenant_t1.tickets ADD COLUMN IF NOT EXISTS priority TEXT")) := by
  have h : Mig.applyMigrations (fun _ => false) ("tenant_" ++ "t1") [fixAddColumn] =
      (["ALTER TABLE tenant_t1.tickets ADD COLUMN IF NOT EXISTS priority TEXT"],
       some "migration failed: ALTER TABLE tenant_t1.tickets ADD COLUMN IF NOT EXISTS priority TEXT") := by
    rfl
  exact ⟨h, C7_amended_failure_reported_per_tenant_but_stops.1 (fun _ => false) "t1"
    ["t2"] [fixAddColumn] _ _ h⟩

/-- C8: a requested relation name matching no declared relation of the
entity is skipped silently by `fetchRelations` — the result rows come back
unchanged (no field is attached for that name) and no error is reported. -/
theorem C8_unknown_relation_name_skipped
    (related : DalM.Relation → List GoValue → Except String (List Entity))
    (service : String) (node : DalM.Node) (entities : List Entity)
    (rels : List Qry.RelationQuery)
    (h : ∀ rq ∈ rels, ∀ r ∈ node.relations, r.name ≠ rq.name) :
    DalM.fetchRelations related service node entities rels = .ok entities := by
  induction rels generalizing entities with
  | nil => simp [DalM.fetchRelations]
  | cons rq rest ih =>
    have hf : node.relations.find? (fun r => r.name == rq.name) = none := by
      apply List.find?_eq_none.mpr
      intro r hr
      simp [h rq (List.mem_cons_self rq rest) r hr]
    simp only [DalM.fetchRelations, hf]
    exact ih entities (fun rq2 h2 => h rq2 (List.mem_cons_of_mem rq h2))

theorem C8_witness :
    (∀ rq ∈ [Qry.RelationQuery.mk "bogus" []], ∀ r ∈ fixRelNode.relations,
      r.name ≠ rq.name) ∧
    DalM.fetchRelations (fun _ _ => .ok []) "ticket" fixRelNode
        [[("id", .vStr "e1"), ("customer_id", .vStr "c1")]]
        [Qry.RelationQuery.mk "bogus" []] =
      .ok [[("id", .vStr "e1"), ("customer_id", .vStr "c1")]] := by
  have h : ∀ rq ∈ [Qry.RelationQuery.mk "bogus" []], ∀ r ∈ fixRelNode.relations,
      r.name ≠ rq.name := by
    intro rq hrq r hr
    simp [fixRelNode] at hr
    simp only [List.mem_singleton] at hrq
    subst hrq
    rw [hr]
    decide
  exact ⟨h, C8_unknown_relation_name_skipped (fun _ _ => .ok []) "ticket" fixRelNode
    [[("id", .vStr "e1"), ("customer_id", .vStr "c1")]]
    [Qry.RelationQuery.mk "bogus" []] h⟩

/-- C9 counterexample: the `in` validation rule — not `required` — rejects
an entity in which the named field is absent: the nil value is compared
against the allow-list with Go equality, is found in no entry, and the
rule's message is returned.  This falsifies the claim's parenthetical that
only the `required` rule can reject a missing or null value. -/
theorem C9_counterexample_in_rule_rejects_missing :
    Hx.runValidation (fun _ => true) (fun _ _ => true) []
        ⟨"status", "in", .vList [.vStr "open"], "status invalid"⟩ =
      .error "status invalid" ∧
    entGet [] "status" = none := by
  exact ⟨rfl, rfl⟩

/-- C9 (amended): the min_length, max_length, email_format and regex rules
fire only after the `value.(string)` assertion succeeds — for any entity in
which the named field is absent, null, or holds a non-string value, each of
these validations passes; the `required` rule and also the `in` rule,
however, can reject a missing or null value. -/
theorem C9_amended_string_rules_skip_non_strings
    (emailOk : String → Bool) (regexOk : String → String → Bool)
    (entity : Entity) (v : Hx.Validation)
    (hrule : v.rule = "min_length" ∨ v.rule = "max_length" ∨
      v.rule = "email_format" ∨ v.rule = "regex")
    (hval : ∀ s, entGet entity v.field ≠ some (.vStr s)) :
    Hx.runValidation emailOk regexOk entity v = .ok () := by
  rcases hv : entGet entity v.field with _ | val
  · rcases hrule with h | h | h | h <;> simp [Hx.runValidation, h, hv]
  · cases val <;>
      first
        | exact absurd hv (hval _)
        | (rcases hrule with h | h | h | h <;> simp [Hx.runValidation, h, hv])

theorem C9_witness :
    ((("min_length" : String) = "min_length" ∨ ("min_length" : String) = "max_length" ∨
      ("min_length" : String) = "email_format" ∨ ("min_length" : String) = "regex") ∧
     (∀ s, entGet [("status", GoValue.vInt 3)] "status" ≠ some (.vStr s))) ∧
    Hx.runValidation (fun _ => true) (fun _ _ => true) [("status", .vInt 3)]
        ⟨"status", "min_length", .vFloat 5, "too short"⟩ =
      .ok () := by
  have h1 : (("min_length" : String) = "min_length" ∨ ("min_length" : String) = "max_length" ∨
      ("min_length" : String) = "email_format" ∨ ("min_length" : String) = "regex") :=
    Or.inl rfl
  have h2 : ∀ s, entGet [("status", GoValue.vInt 3)] "status" ≠ some (.vStr s) := by
    intro s h
    simp [entGet] at h
  exact ⟨⟨h1, h2⟩, C9_amended_string_rules_skip_non_strings (fun _ => true)
    (fun _ _ => true) [("status", .vInt 3)]
    ⟨"status", "min_length", .vFloat 5, "too short"⟩ h1 h2⟩

/-- C10: a hook slot whose enabled flag is false makes the corresponding
evaluator phase return success immediately — none of the slot's declared
validations, rules, actions, field-change triggers or checks run, whatever
the entity values and registered handlers are. -/
theorem C10_disabled_slot_short_circuits (hooks : Hx.Hooks)
    (emailOk : String → Bool) (regexOk : String → String → Bool)
    (aReg : String → Option (Entity → Except String Unit))
    (tReg : String → Option (Entity → Entity → String → Except String Unit))
    (cReg : String → Option (Entity → Except String Unit))
    (entity old new : Entity) :
    (hooks.preCreate.enabled = false →
      Hx.preCreateH hooks emailOk regexOk entity = .ok ()) ∧
    (hooks.postCreate.enabled = false →
      Hx.postCreateH hooks aReg entity = .ok ()) ∧
    (hooks.preUpdate.enabled = false →
      Hx.preUpdateH hooks emailOk regexOk old new = .ok ()) ∧
    (hooks.postUpdate.enabled = false →
      Hx.postUpdateH hooks tReg aReg old new = .ok ()) ∧
    (hooks.preDelete.enabled = false →
      Hx.preDeleteH hooks cReg entity = .ok ()) ∧
    (hooks.postDelete.enabled = false →
      Hx.postDeleteH hooks aReg entity = .ok ()) := by
  refine ⟨?_, ?_, ?_, ?_, ?_, ?_⟩ <;>
    (intro h; simp [Hx.preCreateH, Hx.postCreateH, Hx.preUpdateH, Hx.postUpdateH,
      Hx.preDeleteH, Hx.postDeleteH, h])

theorem C10_witness :
    Hx.preCreateH fixDisabledHooks (fun _ => true) (fun _ _ => true) [] = .ok () ∧
    Hx.postCreateH fixDisabledHooks (fun _ => none) [] = .ok () ∧
    Hx.preUpdateH fixDisabledHooks (fun _ => true) (fun _ _ => true) [] [] = .ok () ∧
    Hx.postUpdateH fixDisabledHooks (fun _ => none) (fun _ => none) [] [] = .ok () ∧
    Hx.preDeleteH fixDisabledHooks (fun _ => none) [] = .ok () ∧
    Hx.postDeleteH fixDisabledHooks (fun _ => none) [] = .ok () := by
  have h := C10_disabled_slot_short_circuits fixDisabledHooks (fun _ => true)
    (fun _ _ => true) (fun _ => none) (fun _ => none) (fun _ => none) [] [] []
  exact ⟨h.1 rfl, h.2.1 rfl, h.2.2.1 rfl, h.2.2.2.1 rfl, h.2.2.2.2.1 rfl,
    h.2.2.2.2.2 rfl⟩

theorem buildCondParts_error_of_unknown (props : List String) :
    ∀ (conds : List Qry.Condition) (i : Nat),
      hasUnknownField props conds = true →
      ∃ e, Qry.buildCondParts props conds i = .error e := by
  intro conds i
  induction conds, i using Qry.buildCondParts.induct props with
  | case1 i =>
    intro h
    simp [hasUnknownField] at h
  | case2 f o v orL andL rest i hlen e hOr ih =>
    intro _
    refine ⟨e, ?_⟩
    simp only [Qry.buildCondParts]
    rw [if_pos hlen]
    simp only [hOr]
  | case3 f o v orL andL rest i hlen p1 a1 i1 hOr e hRest ih1 ih2 =>
    intro _
    refine ⟨e, ?_⟩
    simp only [Qry.buildCondParts]
    rw [if_pos hlen]
    simp only [hOr, hRest]
  | case4 f o v orL andL rest i hlen p1 a1 i1 hOr p2 a2 i2 hRest ih1 ih2 =>
    intro h
    exfalso
    simp only [hasUnknownField] at h
    rw [if_pos hlen] at h
    rw [Bool.or_eq_true] at h
    rcases h with h1 | h1
    · obtain ⟨e, he⟩ := ih1 h1
      rw [he] at hOr
      exact absurd hOr (by simp)
    · obtain ⟨e, he⟩ := ih2 h1
      rw [he] at hRest
      exact absurd hRest (by simp)
  | case5 f o v orL andL rest i hnor hlen e hAnd ih =>
    intro _
    refine ⟨e, ?_⟩
    simp only [Qry.buildCondParts]
    rw [if_neg hnor, if_pos hlen]
    simp only [hAnd]
  | case6 f o v orL andL rest i hnor hlen p1 a1 i1 hAnd e hRest ih1 ih2 =>
    intro _
    refine ⟨e, ?_⟩
    simp only [Qry.buildCondParts]
    rw [if_neg hnor, if_pos hlen]
    simp only [hAnd, hRest]
  | case7 f o v orL andL rest i hnor hlen p1 a1 i1 hAnd p2 a2 i2 hRest ih1 ih2 =>
    intro h
    exfalso
    simp only [hasUnknownField] at h
    rw [if_neg hnor, if_pos hlen] at h
    rw [Bool.or_eq_true] at h
    rcases h with h1 | h1
    · obtain ⟨e, he⟩ := ih1 h1
      rw [he] at hAnd
      exact absurd hAnd (by simp)
    · obtain ⟨e, he⟩ := ih2 h1
      rw [he] at hRest
      exact absurd hRest (by simp)
  | case8 f o v orL andL rest i hnor hnand hcon s0 ps0 idx hbsc e hRest ih =>
    intro _
    refine ⟨e, ?_⟩
    simp only [Qry.buildCondParts]
    rw [if_neg hnor, if_neg hnand, if_pos hcon]
    simp only [hbsc, hRest]
  | case9 f o v orL andL rest i hnor hnand hcon s0 ps0 idx hbsc p2 a2 i2 hRest ih =>
    intro h
    exfalso
    simp only [hasUnknownField] at h
    rw [if_neg hnor, if_neg hnand] at h
    rw [hcon] at h
    simp only [Bool.not_true, Bool.false_or] at h
    obtain ⟨e, he⟩ := ih h
    rw [he] at hRest
    exact absurd hRest (by simp)
  | case10 f o v orL andL rest i hnor hnand hcon =>
    intro _
    refine ⟨"invalid field: " ++ f, ?_⟩
    simp only [Qry.buildCondParts]
    rw [if_neg hnor, if_neg hnand, if_neg hcon]

theorem buildSelectPart_error_of_unknown (props sel : List String) (f : String)
    (hf : f ∈ sel) (hunk : props.contains f = false) :
    ∃ e, Qry.buildSelectPart props sel = .error e := by
  have hlen : (sel.length == 0) = false := by
    cases sel with
    | nil => cases hf
    | cons a l => rfl
  unfold Qry.buildSelectPart
  rw [hlen]
  simp only [Bool.false_eq_true, if_false]
  rcases hopt : sel.find? (fun g => !(props.contains g)) with _ | g
  · rw [List.find?_eq_none] at hopt
    have := hopt f hf
    rw [hunk] at this
    exact absurd rfl this
  · exact ⟨"invalid field: " ++ g, rfl⟩

theorem buildOrders_error_of_unknown (props : List String) :
    ∀ (orderBy : List Qry.OrderClause) (o : Qry.OrderClause),
      o ∈ orderBy → props.contains o.field = false →
      ∃ e, Qry.buildOrders props orderBy = .error e := by
  intro orderBy
  induction orderBy with
  | nil => intro o ho; cases ho
  | cons a rest ih =>
    intro o ho hunk
    rcases List.mem_cons.mp ho with h | h
    · subst h
      refine ⟨"invalid order field: " ++ o.field, ?_⟩
      simp only [Qry.buildOrders, hunk]
      simp
    · cases hcb : props.contains a.field with
      | false =>
        refine ⟨"invalid order field: " ++ a.field, ?_⟩
        simp only [Qry.buildOrders, hcb]
        simp
      | true =>
        obtain ⟨e, he⟩ := ih o h hunk
        refine ⟨e, ?_⟩
        simp only [Qry.buildOrders, hcb, he]
        simp

/-- C4 counterexample: the dal-service projection builder
(`QueryExecutor.buildSelectClause`) does NOT fail on a field absent from the
entity metadata — it silently skips it and falls back to `*`, contradicting
the spec sentence "fails with an UnknownField error if any name is
unrecognized (no silent drop)". -/
theorem C4_counterexample_unknown_select_field_silently_dropped :
    QE.isValidField "bogus" fixQeNode = false ∧
    QE.buildSelectClause ["bogus"] fixQeNode = "*" :=
  ⟨rfl, rfl⟩

/-- C4 (amended): in the SDK query builder (`Builder.Build`), an unknown
field name in the projection, anywhere in the condition tree, or in the
ordering makes compilation fail with an error, producing no statement and no
arguments; only the dal-service projection path drops unknown names. -/
theorem C4_amended_sdk_builder_rejects_unknown_fields
    (b : Qry.Builder) (q : Qry.GoQuery)
    (h : (∃ f ∈ q.select, b.properties.contains f = false) ∨
         hasUnknownField b.properties q.whereConds = true ∨
         (∃ o ∈ q.orderBy, b.properties.contains o.field = false)) :
    ∃ e, Qry.Build b q = .error e := by
  rcases h with ⟨f, hf, hunk⟩ | h | ⟨o, ho, hunk⟩
  · obtain ⟨e, he⟩ := buildSelectPart_error_of_unknown b.properties q.select f hf hunk
    exact ⟨e, by simp only [Qry.Build, he]⟩
  · obtain ⟨e, he⟩ := buildCondParts_error_of_unknown b.properties q.whereConds 1 h
    have hlen : 0 < q.whereConds.length := by
      cases hq : q.whereConds with
      | nil => rw [hq] at h; exact absurd h (by simp [hasUnknownField])
      | cons a l => simp
    have hw : Qry.buildWherePart b.properties q.whereConds = .error e := by
      unfold Qry.buildWherePart
      rw [if_pos hlen]
      simp only [Qry.buildConditions, he]
    rcases hsel : Qry.buildSelectPart b.properties q.select with e2 | s
    · exact ⟨e2, by simp only [Qry.Build, hsel]⟩
    · exact ⟨e, by simp only [Qry.Build, hsel, hw]⟩
  · obtain ⟨e, he⟩ := buildOrders_error_of_unknown b.properties q.orderBy o ho hunk
    have hne : q.orderBy ≠ [] := by intro hnil; rw [hnil] at ho; cases ho
    have hop : Qry.buildOrderPart b.properties q.orderBy = .error e := by
      unfold Qry.buildOrderPart
      rw [if_pos (List.length_pos.mpr hne)]
      simp only [he]
    rcases hsel : Qry.buildSelectPart b.properties q.select with e2 | s
    · exact ⟨e2, by simp only [Qry.Build, hsel]⟩
    · rcases hwp : Qry.buildWherePart b.properties q.whereConds with e3 | ws
      · exact ⟨e3, by simp only [Qry.Build, hsel, hwp]⟩
      · obtain ⟨w, ps⟩ := ws
        exact ⟨e, by simp only [Qry.Build, hsel, hwp, hop]⟩

/-- Witness for C4: a one-field builder and a query selecting the unknown
field `bogus` satisfy the hypothesis and make `Build` fail. -/
theorem C4_witness :
    (∃ f ∈ (["bogus"] : List String), (["status"] : List String).contains f = false) ∧
    (∃ e, Qry.Build ⟨"tenant_x", ["status"]⟩
        ⟨["bogus"], "tickets", [], [], 0, 0, []⟩ = .error e) :=
  ⟨⟨"bogus", by decide, by decide⟩,
   C4_amended_sdk_builder_rejects_unknown_fields ⟨"tenant_x", ["status"]⟩
     ⟨["bogus"], "tickets", [], [], 0, 0, []⟩
     (Or.inl ⟨"bogus", by decide, by decide⟩)⟩
